import Mathlib

/-!
Shallow embedding of the phenology core of `Tools/deafrica_tools/temporal.py`
(`allNaN_arg`, the `_vpos` … `_ros` landmark extractors and the
`xr_phenology` orchestrator), together with theorems settling the spec's
claims about it.

Conventions of the embedding:

* A floating-point cell is `Val := Option ℚ`.  `none` models IEEE NaN — and,
  for the two rate statistics only, any non-finite division result (±Inf or
  NaN).  `some q` models a finite float whose value is tracked as an exact
  rational; float32/float64 rounding is not modelled.
* A grid is flattened to a list of pixels, each pixel being its time series
  (`List Val`); all per-pixel reductions of the source act along that list.
  The time axis carries a numeric coordinate per timestamp (`times`, the
  number xarray's `differentiate` converts the datetimes to) and a
  day-of-year label per timestamp (`doys`).
* numpy/xarray reductions are modelled with their documented skipna
  semantics.  In particular `argmax`/`argmin` with `skipna=True`
  (xarray's `nanargmax`/`nanargmin`) raise
  `ValueError("All-NaN slice encountered")` as soon as any slice is all-NaN;
  raised Python exceptions are modelled as `Except.error`.
* `.astype(np.int16)` of the float NaN sentinel is modelled as 0, the
  platform-typical numpy result of casting NaN to a 16-bit integer; on
  in-range integers the cast wraps modulo 2^16 (`i16`).
-/

/-- A cell of the floating-point grid: `none` is NaN, `some q` a finite
float tracked exactly. -/
abbrev Val := Option ℚ

/-- NaN-propagating addition. -/
def vadd : Val → Val → Val
  | some x, some y => some (x + y)
  | _, _ => none

/-- NaN-propagating subtraction. -/
def vsub : Val → Val → Val
  | some x, some y => some (x - y)
  | _, _ => none

/-- NaN-propagating multiplication (note `0 * NaN = NaN`). -/
def vmul : Val → Val → Val
  | some x, some y => some (x * y)
  | _, _ => none

/-- Division as numpy performs it: a NaN operand gives NaN, and a zero
denominator gives a non-finite result (±Inf, or NaN for 0/0), which this
embedding also writes `none`.  No exception is raised either way. -/
def vdiv : Val → Val → Val
  | some x, some y => if y = 0 then none else some (x / y)
  | _, _ => none

/-- Model of `xr.ufuncs.fabs`: absolute value, NaN maps to NaN. -/
def vfabs : Val → Val
  | some x => some |x|
  | none => none

/-- The comparison `x > c` on floats: every comparison with NaN is False. -/
def vgt (v : Val) (c : ℚ) : Bool :=
  match v with
  | some q => decide (c < q)
  | none => false

/-- The comparison `x < c` on floats: every comparison with NaN is False. -/
def vlt (v : Val) (c : ℚ) : Bool :=
  match v with
  | some q => decide (q < c)
  | none => false

/-- numpy truthiness of a float cell, as `DataArray.where` applies it when
given a float-typed condition: 0.0 is falsy; every other float, including
NaN, is truthy. -/
def vtruthy : Val → Bool
  | some q => decide (q ≠ 0)
  | none => true

/-- Model of `np.isnan` applied to a BOOLEAN array is identically False (booleans are
never NaN).  `_veos` applies it to the boolean array `senesce_deriv < 0`. -/
def isnanOfBool (_b : Bool) : Bool := false

/-- Model of `isnull` of one cell. -/
def isnull (v : Val) : Bool := v.isNone

/-- Model of `da.isnull().all("time")` for one pixel: the all-NaN test. -/
def allNaN (xs : List Val) : Bool := xs.all isnull

/-- Model of `fillna`: replace every NaN cell by `v`.  When `v` is itself NaN the
series is unchanged — which is what happens inside `allNaN_arg` when the
whole grid is invalid and the global min/max is NaN. -/
def fillna (xs : List Val) (v : Val) : List Val :=
  xs.map fun x => match x with
    | none => v
    | some q => some q

/-- Binary maximum ignoring NaN (skipna semantics). -/
def vmaxSkip : Val → Val → Val
  | some x, some y => some (max x y)
  | some x, none => some x
  | none, some y => some y
  | none, none => none

/-- Binary minimum ignoring NaN (skipna semantics). -/
def vminSkip : Val → Val → Val
  | some x, some y => some (min x y)
  | some x, none => some x
  | none, some y => some y
  | none, none => none

/-- Model of `da.max("time")` for one pixel with `skipna=True`: NaN only when no cell
is valid. -/
def nanmax : List Val → Val
  | [] => none
  | x :: xs => vmaxSkip x (nanmax xs)

/-- Model of `da.min("time")` for one pixel with `skipna=True`. -/
def nanmin : List Val → Val
  | [] => none
  | x :: xs => vminSkip x (nanmin xs)

/-- The finite values of a pixel, in time order. -/
def validList : List Val → List ℚ
  | [] => []
  | none :: xs => validList xs
  | some q :: xs => q :: validList xs

/-- Insert into a sorted list (ascending). -/
def insSorted (q : ℚ) : List ℚ → List ℚ
  | [] => [q]
  | x :: xs => if q ≤ x then q :: x :: xs else x :: insSorted q xs

/-- Insertion sort, ascending. -/
def sortQ : List ℚ → List ℚ
  | [] => []
  | x :: xs => insSorted x (sortQ xs)

/-- Model of `median("time")` with skipna (numpy nanmedian): middle of the sorted
valid values, averaging the two middle ones for an even count; NaN when no
value is valid. -/
def nanmedian (xs : List Val) : Val :=
  let vs := sortQ (validList xs)
  let n := vs.length
  if n = 0 then none
  else if n % 2 = 1 then some (vs.getD (n / 2) 0)
  else some ((vs.getD (n / 2 - 1) 0 + vs.getD (n / 2) 0) / 2)

/-- First index (starting at `i`) whose cell equals the finite value `m`. -/
def firstIdxEq (m : ℚ) : List Val → ℕ
  | [] => 0
  | some q :: xs => if q = m then 0 else firstIdxEq m xs + 1
  | none :: xs => firstIdxEq m xs + 1

/-- The index `np.argmax`/`nanargmax` returns on a slice that has at least
one valid cell: the first index attaining the valid maximum (ties broken by
first occurrence, NaNs skipped).  The all-NaN case returns a junk 0; it is
unreachable because `argmaxSkipna` models the `ValueError` numpy raises
first. -/
def nanargmaxIdx (xs : List Val) : ℕ :=
  match nanmax xs with
  | none => 0
  | some m => firstIdxEq m xs

/-- First index attaining the valid minimum, as `np.argmin`/`nanargmin`. -/
def nanargminIdx (xs : List Val) : ℕ :=
  match nanmin xs with
  | none => 0
  | some m => firstIdxEq m xs

/-- The Python exceptions reachable from this module.  `typeError` is the
unsupported-dask `TypeError` (the spec's `UnsupportedEnvironment`);
`valueError` covers both the invalid-method `ValueError` (the spec's
`InvalidConfiguration`) and numpy's all-NaN-slice `ValueError`;
`keyError`/`indexError` model the dictionary/list accesses in the output
assembly; `nameError` models the undefined `idx` when `_vsos`/`_veos` get an
unknown method string. -/
inductive Err
  | typeError
  | valueError
  | keyError
  | indexError
  | nameError
deriving DecidableEq, Repr

/-- The `stat` argument of `allNaN_arg` ("max" or "min").  For any other
string the source falls through and returns Python `None`; no caller does
that, so the embedding restricts the argument to the two meaningful modes. -/
inductive MStat
  | mmax
  | mmin
deriving DecidableEq, Repr

/-- Model of `argmax(dim, skipna=True)` over every pixel of a grid: xarray's
`nanargmax` raises `ValueError("All-NaN slice encountered")` as soon as ANY
pixel is all-NaN, and otherwise takes the first index of each pixel's
maximum. -/
def argmaxSkipna (g : List (List Val)) : Except Err (List ℕ) :=
  if g.any allNaN then .error .valueError
  else .ok (g.map nanargmaxIdx)

/-- Model of `argmin(dim, skipna=True)` over every pixel, with the same all-NaN
raise. -/
def argminSkipna (g : List (List Val)) : Except Err (List ℕ) :=
  if g.any allNaN then .error .valueError
  else .ok (g.map nanargminIdx)

/-- Model of `da.min()` over the whole grid (skipna): the global minimum, NaN only
when no cell of any pixel is valid. -/
def gridMin (g : List (List Val)) : Val := nanmin (g.map nanmin)

/-- Model of `da.max()` over the whole grid (skipna): the global maximum. -/
def gridMax (g : List (List Val)) : Val := nanmax (g.map nanmax)

/-- Model of `allNaN_arg` (temporal.py 30–60): compute the per-pixel all-NaN mask,
fill NaNs with a globally out-of-range value (global min − 1 for `max`,
global max + 1 for `min`), run the argmax/argmin reduction, then overwrite
the all-NaN pixels with the NaN sentinel (`none`).  When the whole grid is
invalid the fill value is itself NaN, the fill is a no-op, and the reduction
raises the all-NaN-slice `ValueError`. -/
def allNaN_arg (g : List (List Val)) (stat : MStat) :
    Except Err (List (Option ℕ)) :=
  let mask := g.map allNaN
  match stat with
  | .mmax => do
      let fv := vsub (gridMin g) (some 1)
      let idxs ← argmaxSkipna (g.map (fun row => fillna row fv))
      return List.zipWith (fun m i => if m then none else some i) mask idxs
  | .mmin => do
      let fv := vadd (gridMax g) (some 1)
      let idxs ← argminSkipna (g.map (fun row => fillna row fv))
      return List.zipWith (fun m i => if m then none else some i) mask idxs


/-- The interior step of `np.gradient` when an explicit coordinate array is
given: the second-order three-point formula.  For uniform spacing the middle
coefficient is 0, but `0 * NaN = NaN`, so a NaN centre cell still
contaminates the derivative — exactly as numpy computes it. -/
def gradAt (t0 t1 t2 : ℚ) (f0 f1 f2 : Val) : Val :=
  let hd := t1 - t0
  let hs := t2 - t1
  vadd (vadd (vmul (some (-hs / (hd * (hd + hs)))) f0)
             (vmul (some ((hs - hd) / (hd * hs))) f1))
       (vmul (some (hd / (hs * (hd + hs)))) f2)

/-- The interior-plus-final-edge walk of `np.gradient`: given the two
previous coordinates/cells and the remaining tail, emit `gradAt` for every
interior point and the one-sided difference for the last point. -/
def gradWalk : ℚ → ℚ → Val → Val → List ℚ → List Val → List Val
  | tm, t, fm, f, [], _ => [vdiv (vsub f fm) (some (t - tm))]
  | tm, t, fm, f, tn :: ts, fn :: fs => gradAt tm t tn fm f fn :: gradWalk t tn f fn ts fs
  | _, _, _, _, _ :: _, [] => []

/-- Model of `np.gradient(f, coord)` with `edge_order=1`, as
`DataArray.differentiate("time")` invokes it: one-sided differences at the
two ends, `gradAt` at interior points.  numpy raises for fewer than two
samples; the pipeline's callers always pass the full (≥ 2 samples) time
axis, for which the walk below is total. -/
def npGradient (ts : List ℚ) (fs : List Val) : List Val :=
  match ts, fs with
  | t0 :: t1 :: ts, f0 :: f1 :: fs =>
      vdiv (vsub f1 f0) (some (t1 - t0)) :: gradWalk t0 t1 f0 f1 ts fs
  | _, _ => []

/-- The input data model: a labelled grid flattened to (pixel, time).
`times` is the numeric time coordinate (ascending), `doys` the day-of-year
of each timestamp — the source derives it from the same datetimes via
`.dt.dayofyear`. -/
structure Grid where
  pixels : List (List Val)
  times : List ℚ
  doys : List ℤ

/-- Model of `da.where(~mask, other=0)` with `mask = da.isnull().all("time")`
(temporal.py 340–341): an all-NaN pixel becomes all zeros, every other pixel
is untouched (its isolated NaNs included). -/
def zeroFill (g : List (List Val)) : List (List Val) :=
  g.map fun row => if allNaN row then row.map (fun _ => some 0) else row

/-- Model of `_vpos` (temporal.py 63–67): `da.max("time")`. -/
def _vpos (g : List (List Val)) : List Val := g.map nanmax

/-- The index part of `_pos` (temporal.py 70–74): `da.argmax("time")` per
pixel, default `skipna=True`.  In the pipeline the grid has been
zero-filled, so the all-NaN raise cannot fire here and the plain index
function is the faithful model. -/
def posIdxs (g : List (List Val)) : List ℕ := g.map nanargmaxIdx

/-- Model of `_pos` (temporal.py 70–74): day-of-year of the timestamp at the peak
index. -/
def _pos (doys : List ℤ) (g : List (List Val)) : List ℤ :=
  (posIdxs g).map fun i => doys.getD i 0

/-- Model of `_trough` (temporal.py 77–81): `da.min("time")`. -/
def _trough (g : List (List Val)) : List Val := g.map nanmin

/-- Model of `_aos` (temporal.py 84–88): vPOS − Trough. -/
def _aos (vpos trough : List Val) : List Val := List.zipWith vsub vpos trough

/-- Model of `da.where(da.time < pos.time)` for one pixel whose peak index is `p`:
the greening side, timestamps strictly before the peak's. -/
def greenupRow (ts : List ℚ) (row : List Val) (p : ℕ) : List Val :=
  List.zipWith (fun t x => if t < ts.getD p 0 then x else none) ts row

/-- Model of `da.where(da.time > pos.time)` for one pixel whose peak index is `p`:
the senescing side, timestamps strictly after the peak's. -/
def senesceRow (ts : List ℚ) (row : List Val) (p : ℕ) : List Val :=
  List.zipWith (fun t x => if ts.getD p 0 < t then x else none) ts row

/-- Lines 105–112 of `_vsos` for one pixel whose peak index is `p`: the
greening side, its first-order derivative, the samples where that
derivative is positive. -/
def pos_greenupRow (ts : List ℚ) (row : List Val) (p : ℕ) : List Val :=
  let greenup := greenupRow ts row p
  let deriv := npGradient ts greenup
  let posDeriv := deriv.map fun d => if vgt d 0 then d else none
  List.zipWith (fun x d => if isnull d then none else x) greenup posDeriv

/-- Subtract a per-pixel scalar (the median) from every cell. -/
def subScalar (m : Val) : List Val → List Val
  | [] => []
  | x :: xs => vsub x m :: subScalar m xs

/-- The `distance`-from-median series of `_vsos`/`_veos` for one pixel. -/
def distRow (row : List Val) : List Val := subScalar (nanmedian row) row

/-- Model of `.astype("int16")` of one cell of the index array returned by
`allNaN_arg`: the NaN sentinel casts to 0 (the platform-typical numpy
float→int16 result for NaN); a real index, always smaller than the time-axis
length, is unchanged. -/
def idxCast (o : Option ℕ) : ℕ := o.getD 0

/-- Model of `_vsos` (temporal.py 91–126).  Per pixel it returns the selected value
together with the selected time index (the `time` coordinate that
`isel` attaches to the result, from which `_sos` reads the day-of-year).
The method strings are validated upstream; any other string leaves the
Python variable `idx` undefined (`NameError`). -/
def _vsos (ts : List ℚ) (g : List (List Val)) (ps : List ℕ)
    (method_sos : String) : Except Err (List (Val × ℕ)) := do
  let pg := List.zipWith (pos_greenupRow ts) g ps
  let dist := pg.map distRow
  let idxO ←
    if method_sos = "first" then allNaN_arg dist .mmin
    else if method_sos = "median" then
      allNaN_arg (dist.map fun row => row.map vfabs) .mmin
    else .error .nameError
  let idx := idxO.map idxCast
  return List.zipWith (fun row i => (row.getD i none, i)) pg idx

/-- Model of `_sos` (temporal.py 129–133): day-of-year of the timestamp `_vsos`
selected. -/
def _sos (doys : List ℤ) (vsosP : List (Val × ℕ)) : List ℤ :=
  vsosP.map fun pr => doys.getD pr.2 0

/-- Lines 149–156 of `_veos` for one pixel whose peak index is `p`,
translated exactly: the senescing side (timestamps strictly after the
peak's), its derivative, then
`senesce_deriv.where(~xr.ufuncs.isnan(senesce_deriv < 0))` — `isnan` applied
to a BOOLEAN array is identically False, so this keeps every sample — and
finally `senesce.where(neg_senesce_deriv)`, which tests float truthiness
(non-zero or NaN), not negativity. -/
def neg_senesceRow (ts : List ℚ) (row : List Val) (p : ℕ) : List Val :=
  let senesce := senesceRow ts row p
  let deriv := npGradient ts senesce
  let negDeriv := deriv.map fun d => if isnanOfBool (vlt d 0) then none else d
  List.zipWith (fun x d => if vtruthy d then x else none) senesce negDeriv

/-- Model of `_veos` (temporal.py 136–170), structured like `_vsos`: method `last`
takes the most-negative distance from the median, method `median` the
smallest absolute distance, both through `allNaN_arg` in `min` mode. -/
def _veos (ts : List ℚ) (g : List (List Val)) (ps : List ℕ)
    (method_eos : String) : Except Err (List (Val × ℕ)) := do
  let ns := List.zipWith (neg_senesceRow ts) g ps
  let dist := ns.map distRow
  let idxO ←
    if method_eos = "last" then allNaN_arg dist .mmin
    else if method_eos = "median" then
      allNaN_arg (dist.map fun row => row.map vfabs) .mmin
    else .error .nameError
  let idx := idxO.map idxCast
  return List.zipWith (fun row i => (row.getD i none, i)) ns idx

/-- Model of `_eos` (temporal.py 173–177): day-of-year of the timestamp `_veos`
selected. -/
def _eos (doys : List ℤ) (veosP : List (Val × ℕ)) : List ℤ :=
  veosP.map fun pr => doys.getD pr.2 0

/-- Model of `_los` (temporal.py 180–192): season length with the wrap rule.  The
wrap constant `da.time.dt.dayofyear.values[-1]` is the day-of-year of the
LAST timestamp of the series (not the largest day-of-year). -/
def _los (doys : List ℤ) (eos sos : List ℤ) : List ℤ :=
  List.zipWith (fun e s =>
    if 0 ≤ e - s then e - s
    else doys.getD (doys.length - 1) 0 + (e - s)) eos sos

/-- Model of `_rog` (temporal.py 195–199): (vPOS − vSOS) / (POS − SOS), elementwise,
with numpy's unguarded division. -/
def _rog : List Val → List Val → List ℤ → List ℤ → List Val
  | vp :: vps, vs :: vss, p :: ps, s :: ss =>
      vdiv (vsub vp vs) (some ((p - s : ℤ) : ℚ)) :: _rog vps vss ps ss
  | _, _, _, _ => []

/-- Model of `_ros` (temporal.py 202–206): (vEOS − vPOS) / (EOS − POS), elementwise,
with numpy's unguarded division. -/
def _ros : List Val → List Val → List ℤ → List ℤ → List Val
  | ve :: ves, vp :: vps, e :: es, p :: ps =>
      vdiv (vsub ve vp) (some ((e - p : ℤ) : ℚ)) :: _ros ves vps es ps
  | _, _, _, _ => []

/-- Model of `.astype(np.int16)` on an integer statistic (SOS/POS/EOS/LOS): wrap into
[−2^15, 2^15).  Day-of-year data never actually wraps. -/
def i16 (z : ℤ) : ℤ := (z + 2 ^ 15) % 2 ^ 16 - 2 ^ 15

/-- The eleven statistics in the key order of the eager branch's
`stats_dict` literal (temporal.py 359–371), given the grid and the two
season-edge extractor results.  Integer statistics go through
`.astype(np.int16)` (`i16`); float statistics go through
`.astype(np.float32)`, modelled as the identity on the exact values. -/
def statsOf (gIn : Grid) (vsosP veosP : List (Val × ℕ)) :
    List (String × List Val) :=
  let g := zeroFill gIn.pixels
  let doys := gIn.doys
  let vpos := _vpos g
  let pos := _pos doys g
  let trough := _trough g
  let aos := _aos vpos trough
  let sos := _sos doys vsosP
  let eos := _eos doys veosP
  let los := _los doys eos sos
  let vsos := vsosP.map Prod.fst
  let veos := veosP.map Prod.fst
  let rog := _rog vpos vsos pos sos
  let ros := _ros veos vpos eos pos
  [("SOS", sos.map fun z => some ((i16 z : ℤ) : ℚ)),
   ("EOS", eos.map fun z => some ((i16 z : ℤ) : ℚ)),
   ("vSOS", vsos),
   ("vPOS", vpos),
   ("Trough", trough),
   ("POS", pos.map fun z => some ((i16 z : ℤ) : ℚ)),
   ("vEOS", veos),
   ("LOS", los.map fun z => some ((i16 z : ℤ) : ℚ)),
   ("AOS", aos),
   ("ROG", rog),
   ("ROS", ros)]

/-- The eager computation (temporal.py 339–371): zero-fill the all-NaN
pixels, run every landmark extractor in dependency order, and build the
`stats_dict` of all eleven statistics — independently of which statistics
were requested. -/
def computeStats (gIn : Grid) (method_sos method_eos : String) :
    Except Err (List (String × List Val)) := do
  let g := zeroFill gIn.pixels
  let ps := posIdxs g
  let vsosP ← _vsos gIn.times g ps method_sos
  let veosP ← _veos gIn.times g ps method_eos
  return statsOf gIn vsosP veosP

/-- Variable lookup in a Dataset modelled as an association list. -/
def dsLookup (ds : List (String × List Val)) (k : String) :
    Option (List Val) :=
  match ds with
  | [] => none
  | p :: rest => if p.1 = k then some p.2 else dsLookup rest k

/-- Model of `ds[stat] = grid`: overwrite an existing variable or append a new one. -/
def dsAssign (ds : List (String × List Val)) (k : String) (v : List Val) :
    List (String × List Val) :=
  if ds.any (fun p => decide (p.1 = k)) then
    ds.map fun p => if p.1 = k then (k, v) else p
  else ds ++ [(k, v)]

/-- One step of the assembly loop (temporal.py 377–381):
`ds[stat] = stats_dict[stat]`, a `KeyError` on an unknown name. -/
def assembleStep (sd ds : List (String × List Val)) (s : String) :
    Except Err (List (String × List Val)) :=
  match dsLookup sd s with
  | none => .error .keyError
  | some v => .ok (dsAssign ds s v)

/-- The output assembly of the eager branch (temporal.py 373–381):
`stats_dict[stats[0]].to_dataset(...)` — an `IndexError` on an empty request
and a `KeyError` on an unknown name — then `ds[stat] = stats_dict[stat]` for
the remaining requested names. -/
def assemble (sd : List (String × List Val)) (stats : List String) :
    Except Err (List (String × List Val)) :=
  match stats with
  | [] => .error .indexError
  | s0 :: rest => do
      let g0 ← match dsLookup sd s0 with
        | none => Except.error Err.keyError
        | some v => Except.ok v
      rest.foldlM (assembleStep sd) [(s0, g0)]

/-- The `stats_dtype` key order of the dask branch (temporal.py 283–295),
which is also the default `stats` argument (211–223). -/
def statOrder : List String :=
  ["SOS", "POS", "EOS", "Trough", "vSOS", "vPOS", "vEOS", "LOS", "AOS",
   "ROG", "ROS"]

/-- What `xr_phenology` hands back: the eager Dataset, or — for a chunked
input — the lazy `map_blocks` result, carried here as its template variables
(the dtype-table names filtered by the request) plus the configuration
passed through unevaluated. -/
inductive PhenoResult
  | eager (ds : List (String × List Val))
  | deferred (tvars : List String) (stats : List String)
      (method_sos method_eos : String)
deriving DecidableEq, Repr

/-- Model of `xr_phenology` (temporal.py 209–388).  `chunked` models
`dask.is_dask_collection(da)`; `xrGE016` models
`version.parse(xr.__version__) >= version.parse("0.16.0")`.  The dask branch
raises `TypeError` on an old xarray and otherwise builds the template and
defers — without validating the method selectors; the eager branch validates
them first, zero-fills the all-NaN pixels, computes all eleven statistics
and assembles the requested subset. -/
def xr_phenology (g : Grid) (stats : List String)
    (method_sos method_eos : String) (chunked xrGE016 : Bool) :
    Except Err PhenoResult :=
  if chunked then
    if ¬ xrGE016 then .error .typeError
    else .ok (.deferred (statOrder.filter fun v => decide (v ∈ stats))
      stats method_sos method_eos)
  else if ¬ (method_sos = "median" ∨ method_sos = "first") then
    .error .valueError
  else if ¬ (method_eos = "median" ∨ method_eos = "last") then
    .error .valueError
  else do
    let sd ← computeStats g method_sos method_eos
    let ds ← assemble sd stats
    return .eager ds

/-- The grid a statistic name maps to in the result of an eager run, if the
run succeeded and the name was requested. -/
def resultStat (r : Except Err PhenoResult) (k : String) :
    Option (List Val) :=
  match r with
  | .ok (.eager ds) => dsLookup ds k
  | _ => none

/-! Section: Spec-side definitions (used to state the claims, not taken from the
source) and concrete input grids used as witnesses and counterexamples. -/

/-- Modelled from the spec (claim C2's wording): the substituted series — every
invalid entry replaced by the out-of-range fill value `fv`. -/
def substRow (fv : ℚ) (row : List Val) : List ℚ :=
  row.map fun x => x.getD fv

/-- Holds when `j` is the first index attaining the maximum of `xs` (the index an
extremum locator in `max` mode must report). -/
def IsFirstMaxIdx (xs : List ℚ) (j : ℕ) : Prop :=
  j < xs.length ∧ (∀ k, k < xs.length → xs.getD k 0 ≤ xs.getD j 0) ∧
    ∀ k, k < j → xs.getD k 0 < xs.getD j 0

/-- Holds when `j` is the first index attaining the minimum of `xs`. -/
def IsFirstMinIdx (xs : List ℚ) (j : ℕ) : Prop :=
  j < xs.length ∧ (∀ k, k < xs.length → xs.getD j 0 ≤ xs.getD k 0) ∧
    ∀ k, k < j → xs.getD j 0 < xs.getD k 0

/-- Modelled from the spec (claim C4's wording): season length is
`e − s` when `e ≥ s` and `lastDoy + (e − s)` otherwise. -/
def specSeasonLength (lastDoy e s : ℤ) : ℤ :=
  if s ≤ e then e - s else lastDoy + (e - s)

/-- Six evenly spaced timestamps (numeric time coordinate). -/
def times6 : List ℚ := [0, 1, 2, 3, 4, 5]

/-- Four evenly spaced timestamps. -/
def times4 : List ℚ := [0, 1, 2, 3]

/-- The claim C8 series: [0.1, 0.2, 0.3, 0.9, 0.5, 0.2] at one pixel. -/
def c8row : List Val :=
  [some (1/10), some (2/10), some (3/10), some (9/10), some (5/10),
   some (2/10)]

/-- The claim C8 input: one pixel over 6 evenly spaced monthly timestamps
starting at day-of-year 1. -/
def c8grid : Grid :=
  { pixels := [c8row], times := times6, doys := [1, 32, 60, 91, 121, 152] }

/-- A series whose season crosses a calendar-year boundary: rising through
October–December, peaking in early January, senescing after.  The `doys`
labels decrease at the year boundary while the timestamps keep ascending. -/
def c4row : List Val :=
  [some (1/10), some (2/10), some (8/10), some 1, some (5/10), some (2/10)]

/-- The year-crossing input for claim C4: day-of-year labels
[280, 310, 340, 5, 35, 60]. -/
def c4grid : Grid :=
  { pixels := [c4row], times := times6, doys := [280, 310, 340, 5, 35, 60] }

/-- A pixel with data: rising to a peak at index 2, then falling. -/
def riseRow : List Val :=
  [some (1/10), some (3/10), some (9/10), some (2/10)]

/-- The claim C1 input: pixel 0 is entirely NaN, pixel 1 carries data. -/
def c1grid : Grid :=
  { pixels := [[none, none, none, none], riseRow], times := times4,
    doys := [1, 2, 3, 4] }

/-- A strictly decreasing pixel: its peak is the first sample, so the
greening side is empty and no rising sample exists. -/
def fallRow : List Val :=
  [some (9/10), some (5/10), some (2/10), some (1/10)]

/-- The claim C5 input: pixel 0 has no qualifying rising sample before its
peak, pixel 1 does. -/
def c5grid : Grid :=
  { pixels := [fallRow, riseRow], times := times4, doys := [10, 20, 30, 40] }

/-- The claim C10 input: pixel 0 peaks at the last timestamp, whose
day-of-year (100) equals the day-of-year of the first timestamp — the
timestamps are one year apart — so POS − SOS = 0 there.  Pixel 1 supplies a
valid senescing side so the extremum locator has a global fill value. -/
def c10grid : Grid :=
  { pixels := [[some (1/10), some (3/10), some (9/10)],
               [some (9/10), some (1/2), some (1/10)]],
    times := [100, 200, 465], doys := [100, 200, 100] }

/-- Five evenly spaced timestamps. -/
def times5 : List ℚ := [0, 1, 2, 3, 4]

/-- The claim C3 failing input: after the peak (index 1) the series falls to
1, falls to 0.5, then RISES to 2; the sample at index 3 lies on a rising
(positive-derivative) stretch. -/
def c3row : List Val := [some 0, some 5, some 1, some (1/2), some 2]

/-- The eleven computed statistics for `c8grid` (source dict order). -/
def c8sd : List (String × List Val) :=
  [("SOS", [some 1]), ("EOS", [some 152]), ("vSOS", [some (1/10)]),
   ("vPOS", [some (9/10)]), ("Trough", [some (1/10)]), ("POS", [some 91]),
   ("vEOS", [some (1/5)]), ("LOS", [some 151]), ("AOS", [some (4/5)]),
   ("ROG", [some (2/225)]), ("ROS", [some (-7/610)])]

/-- The eleven computed statistics for `c4grid`: note the negative LOS. -/
def c4sd : List (String × List Val) :=
  [("SOS", [some 280]), ("EOS", [some 60]), ("vSOS", [some (1/10)]),
   ("vPOS", [some 1]), ("Trough", [some (1/10)]), ("POS", [some 5]),
   ("vEOS", [some (1/5)]), ("LOS", [some (-160)]), ("AOS", [some (9/10)]),
   ("ROG", [some (-9/2750)]), ("ROS", [some (-4/275)])]

/-- The eleven computed statistics for `c1grid`: at the all-NaN pixel 0 the
value statistics come from the zero-filled series (vPOS = Trough = AOS = 0)
and the position statistics are real day-of-year numbers. -/
def c1sd : List (String × List Val) :=
  [("SOS", [some 1, some 1]), ("EOS", [some 2, some 4]),
   ("vSOS", [none, some (1/10)]), ("vPOS", [some 0, some (9/10)]),
   ("Trough", [some 0, some (1/10)]), ("POS", [some 1, some 3]),
   ("vEOS", [some 0, some (1/5)]), ("LOS", [some 1, some 3]),
   ("AOS", [some 0, some (4/5)]), ("ROG", [none, some (2/5)]),
   ("ROS", [some 0, some (-7/10)])]

/-- The eleven computed statistics for `c5grid`: at pixel 0 (no rising
sample) vSOS is NaN but SOS is the first timestamp's day-of-year 10. -/
def c5sd : List (String × List Val) :=
  [("SOS", [some 10, some 10]), ("EOS", [some 40, some 40]),
   ("vSOS", [none, some (1/10)]), ("vPOS", [some (9/10), some (9/10)]),
   ("Trough", [some (1/10), some (1/10)]), ("POS", [some 10, some 30]),
   ("vEOS", [some (1/10), some (1/5)]), ("LOS", [some 30, some 30]),
   ("AOS", [some (4/5), some (4/5)]), ("ROG", [none, some (1/25)]),
   ("ROS", [some (-2/75), some (-7/100)])]

/-- The eleven computed statistics for `c10grid`: at pixel 0 the peak and
start-of-season days-of-year coincide (both 100), so ROG divides by zero. -/
def c10sd : List (String × List Val) :=
  [("SOS", [some 100, some 100]), ("EOS", [some 100, some 100]),
   ("vSOS", [some (1/10), none]), ("vPOS", [some (9/10), some (9/10)]),
   ("Trough", [some (1/10), some (1/10)]), ("POS", [some 100, some 100]),
   ("vEOS", [none, some (1/10)]), ("LOS", [some 0, some 0]),
   ("AOS", [some (4/5), some (4/5)]), ("ROG", [none, none]),
   ("ROS", [none, none])]

/-! Section: Concrete evaluation of the pipeline on `c8grid` -/

theorem zf_c8 : zeroFill [c8row] = [c8row] := by
  norm_num [zeroFill, c8row, allNaN, isnull, Option.isNone]

theorem ps_c8 : posIdxs [c8row] = [3] := by
  norm_num [posIdxs, c8row, nanargmaxIdx, nanmax, vmaxSkip, firstIdxEq]

theorem pg_c8 : pos_greenupRow times6 c8row 3 =
    [some (1/10), some (2/10), none, none, none, none] := by
  norm_num [pos_greenupRow, greenupRow, times6, c8row, npGradient, gradWalk,
    gradAt, vadd, vsub, vmul, vdiv, vgt, isnull, Option.isNone]

theorem distA_eval :
    distRow [some (1/10), some (2/10), none, none, none, none] =
      [some (-1/20), some (1/20), none, none, none, none] := by
  norm_num [distRow, nanmedian, sortQ, insSorted, validList, subScalar, vsub]

theorem argA_eval :
    allNaN_arg [[some (-1/20), some (1/20), none, none, none, none]] .mmin =
      .ok [some 0] := by
  norm_num [allNaN_arg, argminSkipna, gridMax, nanmax, vmaxSkip, fillna,
    allNaN, isnull, Option.isNone, nanargminIdx, nanmin, vminSkip, firstIdxEq,
    vadd]

theorem vsos_c8 : _vsos times6 [c8row] [3] "first" =
    .ok [(some (1/10), 0)] := by
  simp only [_vsos, List.zipWith, pg_c8, List.map, distA_eval, argA_eval,
    String.reduceEq, reduceIte, Bind.bind, Except.bind, idxCast, Option.getD,
    List.getD, pure, Except.pure, List.get?]
  norm_num [isnull, vgt, vdiv, vsub, vadd, vmul, Option.isNone]

theorem ns_c8 : neg_senesceRow times6 c8row 3 =
    [none, none, none, none, some (1/2), some (1/5)] := by
  norm_num [neg_senesceRow, senesceRow, times6, c8row, npGradient, gradWalk,
    gradAt, vadd, vsub, vmul, vdiv, vlt, vtruthy, isnanOfBool, Option.isNone]

theorem distB_eval :
    distRow [none, none, none, none, some (1/2), some (1/5)] =
      [none, none, none, none, some (3/20), some (-3/20)] := by
  norm_num [distRow, nanmedian, sortQ, insSorted, validList, subScalar, vsub]

theorem argB_eval :
    allNaN_arg [[none, none, none, none, some (3/20), some (-3/20)]] .mmin =
      .ok [some 5] := by
  norm_num [allNaN_arg, argminSkipna, gridMax, nanmax, vmaxSkip, fillna,
    allNaN, isnull, Option.isNone, nanargminIdx, nanmin, vminSkip, firstIdxEq,
    vadd]

theorem veos_c8 : _veos times6 [c8row] [3] "last" =
    .ok [(some (1/5), 5)] := by
  simp only [_veos, List.zipWith, ns_c8, List.map, distB_eval, argB_eval,
    String.reduceEq, reduceIte, Bind.bind, Except.bind, idxCast, Option.getD,
    List.getD, pure, Except.pure, List.get?]
  norm_num [vtruthy, vlt, isnanOfBool, vdiv, vsub, vadd, vmul, Option.isNone]

theorem cs_c8 : computeStats c8grid "first" "last" = .ok c8sd := by
  simp only [computeStats, c8grid, zf_c8, ps_c8, vsos_c8, veos_c8, Bind.bind,
    Except.bind, pure, Except.pure]
  norm_num [statsOf, zeroFill, allNaN, isnull, Option.isNone, List.replicate, c8row, c8sd, times6, _vpos, _pos, posIdxs, ps_c8, _trough, _aos,
    _sos, _eos, _los, _rog, _ros, nanmax, nanmin, vmaxSkip, vminSkip,
    nanargmaxIdx, firstIdxEq, vadd, vsub, vmul, vdiv, i16, List.getD,
    List.get?]

theorem asm_c8 : assemble c8sd ["vPOS", "Trough", "AOS"] =
    .ok [("vPOS", [some (9/10)]), ("Trough", [some (1/10)]),
         ("AOS", [some (4/5)])] := by
  simp [assemble, assembleStep, c8sd, dsLookup, dsAssign, List.foldlM,
    Bind.bind, Except.bind, pure, Except.pure]

/-! Section: Concrete evaluation of the pipeline on `c4grid` -/

theorem zf_c4 : zeroFill [c4row] = [c4row] := by
  norm_num [zeroFill, c4row, allNaN, isnull, Option.isNone]

theorem ps_c4 : posIdxs [c4row] = [3] := by
  norm_num [posIdxs, c4row, nanargmaxIdx, nanmax, vmaxSkip, firstIdxEq]

theorem pg_c4 : pos_greenupRow times6 c4row 3 =
    [some (1/10), some (2/10), none, none, none, none] := by
  norm_num [pos_greenupRow, greenupRow, times6, c4row, npGradient, gradWalk,
    gradAt, vadd, vsub, vmul, vdiv, vgt, isnull, Option.isNone]

theorem vsos_c4 : _vsos times6 [c4row] [3] "first" =
    .ok [(some (1/10), 0)] := by
  simp only [_vsos, List.zipWith, pg_c4, List.map, distA_eval, argA_eval,
    String.reduceEq, reduceIte, Bind.bind, Except.bind, idxCast, Option.getD,
    List.getD, pure, Except.pure, List.get?]
  norm_num [isnull, vgt, vdiv, vsub, vadd, vmul, Option.isNone]

theorem ns_c4 : neg_senesceRow times6 c4row 3 =
    [none, none, none, none, some (1/2), some (1/5)] := by
  norm_num [neg_senesceRow, senesceRow, times6, c4row, npGradient, gradWalk,
    gradAt, vadd, vsub, vmul, vdiv, vlt, vtruthy, isnanOfBool, Option.isNone]

theorem veos_c4 : _veos times6 [c4row] [3] "last" =
    .ok [(some (1/5), 5)] := by
  simp only [_veos, List.zipWith, ns_c4, List.map, distB_eval, argB_eval,
    String.reduceEq, reduceIte, Bind.bind, Except.bind, idxCast, Option.getD,
    List.getD, pure, Except.pure, List.get?]
  norm_num [vtruthy, vlt, isnanOfBool, vdiv, vsub, vadd, vmul, Option.isNone]

theorem cs_c4 : computeStats c4grid "first" "last" = .ok c4sd := by
  simp only [computeStats, c4grid, zf_c4, ps_c4, vsos_c4, veos_c4, Bind.bind,
    Except.bind, pure, Except.pure]
  norm_num [statsOf, zeroFill, allNaN, isnull, Option.isNone, List.replicate, c4row, c4sd, times6, _vpos, _pos, posIdxs, ps_c4, _trough, _aos,
    _sos, _eos, _los, _rog, _ros, nanmax, nanmin, vmaxSkip, vminSkip,
    nanargmaxIdx, firstIdxEq, vadd, vsub, vmul, vdiv, i16, List.getD,
    List.get?]

theorem asm_c4 : assemble c4sd ["SOS", "EOS", "LOS"] =
    .ok [("SOS", [some 280]), ("EOS", [some 60]), ("LOS", [some (-160)])] := by
  simp [assemble, assembleStep, c4sd, dsLookup, dsAssign, List.foldlM,
    Bind.bind, Except.bind, pure, Except.pure]

/-! Section: Concrete evaluation of the pipeline on `c1grid` -/

theorem zf_c1 : zeroFill [[none, none, none, none], riseRow] =
    [[some 0, some 0, some 0, some 0], riseRow] := by
  norm_num [zeroFill, riseRow, allNaN, isnull, Option.isNone,
    List.replicate]

theorem ps_c1 : posIdxs [[some 0, some 0, some 0, some 0], riseRow] =
    [0, 2] := by
  norm_num [posIdxs, riseRow, nanargmaxIdx, nanmax, vmaxSkip, firstIdxEq]

theorem pg0_c1 : pos_greenupRow times4 [some 0, some 0, some 0, some 0] 0 =
    [none, none, none, none] := by
  norm_num [pos_greenupRow, greenupRow, times4, npGradient, gradWalk, gradAt,
    vadd, vsub, vmul, vdiv, vgt, isnull, Option.isNone]

theorem pg1_c1 : pos_greenupRow times4 riseRow 2 =
    [some (1/10), none, none, none] := by
  norm_num [pos_greenupRow, greenupRow, times4, riseRow, npGradient, gradWalk,
    gradAt, vadd, vsub, vmul, vdiv, vgt, isnull, Option.isNone]

theorem distC_eval : distRow [none, none, none, none] =
    [none, none, none, none] := by
  norm_num [distRow, nanmedian, sortQ, insSorted, validList, subScalar, vsub]

theorem distD_eval : distRow [some (1/10), none, none, none] =
    [some 0, none, none, none] := by
  norm_num [distRow, nanmedian, sortQ, insSorted, validList, subScalar, vsub]

theorem argC_eval :
    allNaN_arg [[none, none, none, none], [some 0, none, none, none]] .mmin =
      .ok [none, some 0] := by
  norm_num [allNaN_arg, argminSkipna, gridMax, nanmax, vmaxSkip, fillna,
    allNaN, isnull, Option.isNone, nanargminIdx, nanmin, vminSkip, firstIdxEq,
    vadd]

theorem vsos_c1 :
    _vsos times4 [[some 0, some 0, some 0, some 0], riseRow] [0, 2] "first" =
      .ok [(none, 0), (some (1/10), 0)] := by
  simp only [_vsos, List.zipWith, pg0_c1, pg1_c1, List.map, distC_eval,
    distD_eval, argC_eval, String.reduceEq, reduceIte, Bind.bind, Except.bind,
    idxCast, Option.getD, List.getD, pure, Except.pure, List.get?]
  norm_num [isnull, vgt, vdiv, vsub, vadd, vmul, Option.isNone]

theorem ns0_c1 : neg_senesceRow times4 [some 0, some 0, some 0, some 0] 0 =
    [none, some 0, none, none] := by
  norm_num [neg_senesceRow, senesceRow, times4, npGradient, gradWalk, gradAt,
    vadd, vsub, vmul, vdiv, vlt, vtruthy, isnanOfBool, Option.isNone]

theorem ns1_c1 : neg_senesceRow times4 riseRow 2 =
    [none, none, none, some (1/5)] := by
  norm_num [neg_senesceRow, senesceRow, times4, riseRow, npGradient, gradWalk,
    gradAt, vadd, vsub, vmul, vdiv, vlt, vtruthy, isnanOfBool, Option.isNone]

theorem distE_eval : distRow [none, some 0, none, none] =
    [none, some 0, none, none] := by
  norm_num [distRow, nanmedian, sortQ, insSorted, validList, subScalar, vsub]

theorem distF_eval : distRow [none, none, none, some (1/5)] =
    [none, none, none, some 0] := by
  norm_num [distRow, nanmedian, sortQ, insSorted, validList, subScalar, vsub]

theorem argD_eval :
    allNaN_arg [[none, some 0, none, none], [none, none, none, some 0]]
      .mmin = .ok [some 1, some 3] := by
  norm_num [allNaN_arg, argminSkipna, gridMax, nanmax, vmaxSkip, fillna,
    allNaN, isnull, Option.isNone, nanargminIdx, nanmin, vminSkip, firstIdxEq,
    vadd]

theorem veos_c1 :
    _veos times4 [[some 0, some 0, some 0, some 0], riseRow] [0, 2] "last" =
      .ok [(some 0, 1), (some (1/5), 3)] := by
  simp only [_veos, List.zipWith, ns0_c1, ns1_c1, List.map, distE_eval,
    distF_eval, argD_eval, String.reduceEq, reduceIte, Bind.bind, Except.bind,
    idxCast, Option.getD, List.getD, pure, Except.pure, List.get?]
  norm_num [neg_senesceRow, senesceRow, times4, npGradient, gradWalk, gradAt,
    vtruthy, vlt, isnanOfBool, vdiv, vsub, vadd, vmul, Option.isNone]

theorem cs_c1 : computeStats c1grid "first" "last" = .ok c1sd := by
  simp only [computeStats, c1grid, zf_c1, ps_c1, vsos_c1, veos_c1, Bind.bind,
    Except.bind, pure, Except.pure]
  norm_num [statsOf, zeroFill, allNaN, isnull, Option.isNone, List.replicate, riseRow, c1sd, times4, _vpos, _pos, posIdxs, ps_c1, _trough, _aos,
    _sos, _eos, _los, _rog, _ros, nanmax, nanmin, vmaxSkip, vminSkip,
    nanargmaxIdx, firstIdxEq, vadd, vsub, vmul, vdiv, i16, List.getD,
    List.get?]

theorem asm_c1 : assemble c1sd statOrder =
    .ok [("SOS", [some 1, some 1]), ("POS", [some 1, some 3]),
         ("EOS", [some 2, some 4]), ("Trough", [some 0, some (1/10)]),
         ("vSOS", [none, some (1/10)]), ("vPOS", [some 0, some (9/10)]),
         ("vEOS", [some 0, some (1/5)]), ("LOS", [some 1, some 3]),
         ("AOS", [some 0, some (4/5)]), ("ROG", [none, some (2/5)]),
         ("ROS", [some 0, some (-7/10)])] := by
  simp [assemble, assembleStep, c1sd, statOrder, dsLookup, dsAssign,
    List.foldlM, Bind.bind, Except.bind, pure, Except.pure]

theorem final_c1 : xr_phenology c1grid statOrder "first" "last" false true =
    .ok (.eager
      [("SOS", [some 1, some 1]), ("POS", [some 1, some 3]),
       ("EOS", [some 2, some 4]), ("Trough", [some 0, some (1/10)]),
       ("vSOS", [none, some (1/10)]), ("vPOS", [some 0, some (9/10)]),
       ("vEOS", [some 0, some (1/5)]), ("LOS", [some 1, some 3]),
       ("AOS", [some 0, some (4/5)]), ("ROG", [none, some (2/5)]),
       ("ROS", [some 0, some (-7/10)])]) := by
  simp only [xr_phenology, cs_c1, asm_c1, Bind.bind, Except.bind, pure,
    Except.pure, String.reduceEq, reduceIte]
  simp

/-! Section: Concrete evaluation of the pipeline on `c5grid` -/

theorem zf_c5 : zeroFill [fallRow, riseRow] = [fallRow, riseRow] := by
  norm_num [zeroFill, fallRow, riseRow, allNaN, isnull, Option.isNone]

theorem ps_c5 : posIdxs [fallRow, riseRow] = [0, 2] := by
  norm_num [posIdxs, fallRow, riseRow, nanargmaxIdx, nanmax, vmaxSkip,
    firstIdxEq]

theorem pg0_c5 : pos_greenupRow times4 fallRow 0 =
    [none, none, none, none] := by
  norm_num [pos_greenupRow, greenupRow, times4, fallRow, npGradient, gradWalk,
    gradAt, vadd, vsub, vmul, vdiv, vgt, isnull, Option.isNone]

theorem vsos_c5 : _vsos times4 [fallRow, riseRow] [0, 2] "first" =
    .ok [(none, 0), (some (1/10), 0)] := by
  simp only [_vsos, List.zipWith, pg0_c5, pg1_c1, List.map, distC_eval,
    distD_eval, argC_eval, String.reduceEq, reduceIte, Bind.bind, Except.bind,
    idxCast, Option.getD, List.getD, pure, Except.pure, List.get?]
  norm_num [pos_greenupRow, greenupRow, times4, fallRow, npGradient, gradWalk,
    gradAt, vadd, vsub, vmul, vdiv, vgt, isnull, Option.isNone]

theorem ns0_c5 : neg_senesceRow times4 fallRow 0 =
    [none, some (1/2), some (1/5), some (1/10)] := by
  norm_num [neg_senesceRow, senesceRow, times4, fallRow, npGradient, gradWalk,
    gradAt, vadd, vsub, vmul, vdiv, vlt, vtruthy, isnanOfBool, Option.isNone]

theorem distG_eval : distRow [none, some (1/2), some (1/5), some (1/10)] =
    [none, some (3/10), some 0, some (-1/10)] := by
  norm_num [distRow, nanmedian, sortQ, insSorted, validList, subScalar, vsub]

theorem argE_eval :
    allNaN_arg [[none, some (3/10), some 0, some (-1/10)],
                [none, none, none, some 0]] .mmin = .ok [some 3, some 3] := by
  norm_num [allNaN_arg, argminSkipna, gridMax, nanmax, vmaxSkip, fillna,
    allNaN, isnull, Option.isNone, nanargminIdx, nanmin, vminSkip, firstIdxEq,
    vadd]

theorem veos_c5 : _veos times4 [fallRow, riseRow] [0, 2] "last" =
    .ok [(some (1/10), 3), (some (1/5), 3)] := by
  simp only [_veos, List.zipWith, ns0_c5, ns1_c1, List.map, distG_eval,
    distF_eval, argE_eval, String.reduceEq, reduceIte, Bind.bind, Except.bind,
    idxCast, Option.getD, List.getD, pure, Except.pure, List.get?]
  norm_num [neg_senesceRow, senesceRow, times4, fallRow, npGradient, gradWalk,
    gradAt, vtruthy, vlt, isnanOfBool, vdiv, vsub, vadd, vmul, Option.isNone]

theorem cs_c5 : computeStats c5grid "first" "last" = .ok c5sd := by
  simp only [computeStats, c5grid, zf_c5, ps_c5, vsos_c5, veos_c5, Bind.bind,
    Except.bind, pure, Except.pure]
  norm_num [statsOf, zeroFill, allNaN, isnull, Option.isNone, List.replicate, fallRow, riseRow, c5sd, times4, _vpos, _pos, posIdxs, ps_c5,
    _trough, _aos, _sos, _eos, _los, _rog, _ros, nanmax, nanmin, vmaxSkip,
    vminSkip, nanargmaxIdx, firstIdxEq, vadd, vsub, vmul, vdiv, i16,
    List.getD, List.get?]

theorem asm_c5 : assemble c5sd ["SOS", "vSOS"] =
    .ok [("SOS", [some 10, some 10]), ("vSOS", [none, some (1/10)])] := by
  simp [assemble, assembleStep, c5sd, dsLookup, dsAssign, List.foldlM,
    Bind.bind, Except.bind, pure, Except.pure]

theorem final_c5 : xr_phenology c5grid ["SOS", "vSOS"] "first" "last"
    false true =
    .ok (.eager [("SOS", [some 10, some 10]),
                 ("vSOS", [none, some (1/10)])]) := by
  simp only [xr_phenology, cs_c5, asm_c5, Bind.bind, Except.bind, pure,
    Except.pure, String.reduceEq, reduceIte]
  simp

/-! Section: Concrete evaluation of the pipeline on `c10grid` -/

theorem zf_c10 : zeroFill [[some (1/10), some (3/10), some (9/10)],
    [some (9/10), some (1/2), some (1/10)]] = [[some (1/10), some (3/10), some (9/10)],
    [some (9/10), some (1/2), some (1/10)]] := by
  norm_num [zeroFill, allNaN, isnull, Option.isNone]

theorem ps_c10 : posIdxs [[some (1/10), some (3/10), some (9/10)],
    [some (9/10), some (1/2), some (1/10)]] = [2, 0] := by
  norm_num [posIdxs, nanargmaxIdx, nanmax, vmaxSkip, firstIdxEq]

theorem pg0_c10 :
    pos_greenupRow [100, 200, 465] [some (1/10), some (3/10), some (9/10)] 2 =
      [some (1/10), none, none] := by
  norm_num [pos_greenupRow, greenupRow, npGradient, gradWalk, gradAt, vadd,
    vsub, vmul, vdiv, vgt, isnull, Option.isNone]

theorem pg1_c10 :
    pos_greenupRow [100, 200, 465] [some (9/10), some (1/2), some (1/10)] 0 =
      [none, none, none] := by
  norm_num [pos_greenupRow, greenupRow, npGradient, gradWalk, gradAt, vadd,
    vsub, vmul, vdiv, vgt, isnull, Option.isNone]

theorem distH_eval : distRow [some (1/10), none, none] =
    [some 0, none, none] := by
  norm_num [distRow, nanmedian, sortQ, insSorted, validList, subScalar, vsub]

theorem distI_eval : distRow [none, none, none] = [none, none, none] := by
  norm_num [distRow, nanmedian, sortQ, insSorted, validList, subScalar, vsub]

theorem argF_eval :
    allNaN_arg [[some 0, none, none], [none, none, none]] .mmin =
      .ok [some 0, none] := by
  norm_num [allNaN_arg, argminSkipna, gridMax, nanmax, vmaxSkip, fillna,
    allNaN, isnull, Option.isNone, nanargminIdx, nanmin, vminSkip, firstIdxEq,
    vadd]

theorem vsos_c10 : _vsos [100, 200, 465] [[some (1/10), some (3/10), some (9/10)],
    [some (9/10), some (1/2), some (1/10)]] [2, 0] "first" =
    .ok [(some (1/10), 0), (none, 0)] := by
  simp only [_vsos, List.zipWith, pg0_c10, pg1_c10, List.map,
    distH_eval, distI_eval, argF_eval, String.reduceEq, reduceIte, Bind.bind,
    Except.bind, idxCast, Option.getD, List.getD, pure, Except.pure,
    List.get?]
  norm_num [pos_greenupRow, greenupRow, npGradient, gradWalk, gradAt, vadd,
    vsub, vmul, vdiv, vgt, isnull, Option.isNone]

theorem ns0_c10 :
    neg_senesceRow [100, 200, 465] [some (1/10), some (3/10), some (9/10)] 2 =
      [none, none, none] := by
  norm_num [neg_senesceRow, senesceRow, npGradient, gradWalk, gradAt, vadd,
    vsub, vmul, vdiv, vlt, vtruthy, isnanOfBool, Option.isNone]

theorem ns1_c10 :
    neg_senesceRow [100, 200, 465] [some (9/10), some (1/2), some (1/10)] 0 =
      [none, some (1/2), some (1/10)] := by
  norm_num [neg_senesceRow, senesceRow, npGradient, gradWalk, gradAt, vadd,
    vsub, vmul, vdiv, vlt, vtruthy, isnanOfBool, Option.isNone]

theorem distJ_eval : distRow [none, some (1/2), some (1/10)] =
    [none, some (1/5), some (-1/5)] := by
  norm_num [distRow, nanmedian, sortQ, insSorted, validList, subScalar, vsub]

theorem argG_eval :
    allNaN_arg [[none, none, none], [none, some (1/5), some (-1/5)]] .mmin =
      .ok [none, some 2] := by
  norm_num [allNaN_arg, argminSkipna, gridMax, nanmax, vmaxSkip, fillna,
    allNaN, isnull, Option.isNone, nanargminIdx, nanmin, vminSkip, firstIdxEq,
    vadd]

theorem veos_c10 : _veos [100, 200, 465] [[some (1/10), some (3/10), some (9/10)],
    [some (9/10), some (1/2), some (1/10)]] [2, 0] "last" =
    .ok [(none, 0), (some (1/10), 2)] := by
  simp only [_veos, List.zipWith, ns0_c10, ns1_c10, List.map,
    distI_eval, distJ_eval, argG_eval, String.reduceEq, reduceIte, Bind.bind,
    Except.bind, idxCast, Option.getD, List.getD, pure, Except.pure,
    List.get?]
  norm_num [neg_senesceRow, senesceRow, npGradient, gradWalk, gradAt,
    vtruthy, vlt, isnanOfBool, vdiv, vsub, vadd, vmul, Option.isNone]

theorem cs_c10 : computeStats c10grid "first" "last" = .ok c10sd := by
  simp only [computeStats, c10grid, zf_c10, ps_c10, vsos_c10, veos_c10,
    Bind.bind, Except.bind, pure, Except.pure]
  norm_num [statsOf, zeroFill, allNaN, isnull, Option.isNone, List.replicate, c10grid, c10sd, _vpos, _pos, posIdxs, ps_c10, _trough, _aos,
    _sos, _eos, _los, _rog, _ros, nanmax, nanmin, vmaxSkip, vminSkip,
    nanargmaxIdx, firstIdxEq, vadd, vsub, vmul, vdiv, i16, List.getD,
    List.get?]

theorem asm_c10 : assemble c10sd ["POS", "SOS", "ROG"] =
    .ok [("POS", [some 100, some 100]), ("SOS", [some 100, some 100]),
         ("ROG", [none, none])] := by
  simp [assemble, assembleStep, c10sd, dsLookup, dsAssign, List.foldlM,
    Bind.bind, Except.bind, pure, Except.pure]

theorem final_c10 : xr_phenology c10grid ["POS", "SOS", "ROG"] "first" "last"
    false true =
    .ok (.eager [("POS", [some 100, some 100]), ("SOS", [some 100, some 100]),
                 ("ROG", [none, none])]) := by
  simp only [xr_phenology, cs_c10, asm_c10, Bind.bind, Except.bind, pure,
    Except.pure, String.reduceEq, reduceIte]
  simp

/-! Section: Concrete evaluation of `_veos` on the claim C3 failing input -/

theorem sen_c3 : senesceRow times5 c3row 1 =
    [none, none, some 1, some (1/2), some 2] := by
  norm_num [senesceRow, times5, c3row]

theorem grad_c3 : npGradient times5 [none, none, some 1, some (1/2), some 2] =
    [none, none, none, some (1/2), some (3/2)] := by
  norm_num [npGradient, times5, gradWalk, gradAt, vadd, vsub, vmul, vdiv]

theorem ns_c3 : neg_senesceRow times5 c3row 1 =
    [none, none, some 1, some (1/2), some 2] := by
  norm_num [neg_senesceRow, senesceRow, times5, c3row, npGradient, gradWalk,
    gradAt, vadd, vsub, vmul, vdiv, vlt, vtruthy, isnanOfBool, Option.isNone]

theorem distK_eval : distRow [none, none, some 1, some (1/2), some 2] =
    [none, none, some 0, some (-1/2), some 1] := by
  norm_num [distRow, nanmedian, sortQ, insSorted, validList, subScalar, vsub]

theorem argH_eval :
    allNaN_arg [[none, none, some 0, some (-1/2), some 1]] .mmin =
      .ok [some 3] := by
  norm_num [allNaN_arg, argminSkipna, gridMax, nanmax, vmaxSkip, fillna,
    allNaN, isnull, Option.isNone, nanargminIdx, nanmin, vminSkip, firstIdxEq,
    vadd]

theorem veos_c3 : _veos times5 [c3row] [1] "last" = .ok [(some (1/2), 3)] := by
  simp only [_veos, List.zipWith, ns_c3, List.map, distK_eval, argH_eval,
    String.reduceEq, reduceIte, Bind.bind, Except.bind, idxCast, Option.getD,
    List.getD, pure, Except.pure, List.get?]
  norm_num [neg_senesceRow, senesceRow, times5, c3row, npGradient, gradWalk,
    gradAt, vtruthy, vlt, isnanOfBool, vdiv, vsub, vadd, vmul, Option.isNone]

/-! Section: General lemmas about the embedding -/

theorem get?_zipWith {α β γ : Type} (f : α → β → γ) (as : List α) :
    ∀ (bs : List β) (p : ℕ) (a : α) (b : β),
      as.get? p = some a → bs.get? p = some b →
      (List.zipWith f as bs).get? p = some (f a b) := by
  induction as with
  | nil => intro bs p a b ha _; simp [List.get?] at ha
  | cons x as ih =>
      intro bs p a b ha hb
      cases bs with
      | nil => simp [List.get?] at hb
      | cons y bs =>
          cases p with
          | zero =>
              simp only [List.get?, Option.some.injEq] at ha hb
              subst ha; subst hb
              rfl
          | succ p =>
              simp only [List.get?] at ha hb
              simpa [List.zipWith, List.get?] using ih bs p a b ha hb

theorem vsub_none_left (m : Val) : vsub none m = none := by
  cases m <;> rfl

theorem isnull_eq (x : Val) : isnull x = true ↔ x = none := by
  cases x <;> simp [isnull]

theorem allNaN_cons (x : Val) (xs : List Val) :
    allNaN (x :: xs) = (isnull x && allNaN xs) := by
  simp [allNaN, List.all]

theorem subScalar_allNaN (m : Val) (row : List Val)
    (h : allNaN row = true) : allNaN (subScalar m row) = true := by
  induction row with
  | nil => rfl
  | cons x xs ih =>
      rw [allNaN_cons, Bool.and_eq_true] at h
      have hx : x = none := (isnull_eq x).mp h.1
      subst hx
      rw [subScalar, vsub_none_left, allNaN_cons, Bool.and_eq_true]
      exact ⟨rfl, ih h.2⟩

theorem distRow_allNaN (row : List Val) (h : allNaN row = true) :
    allNaN (distRow row) = true := subScalar_allNaN _ row h

theorem map_vfabs_allNaN (row : List Val) (h : allNaN row = true) :
    allNaN (row.map vfabs) = true := by
  induction row with
  | nil => rfl
  | cons x xs ih =>
      rw [allNaN_cons, Bool.and_eq_true] at h
      have hx : x = none := (isnull_eq x).mp h.1
      subst hx
      rw [List.map, allNaN_cons, Bool.and_eq_true]
      exact ⟨rfl, ih h.2⟩

theorem getD_zero_allNaN (row : List Val) (h : allNaN row = true) :
    row.getD 0 none = none := by
  cases row with
  | nil => rfl
  | cons x xs =>
      rw [allNaN_cons, Bool.and_eq_true] at h
      have hx : x = none := (isnull_eq x).mp h.1
      simp [hx]

theorem allNaN_arg_ok_at (G : List (List Val)) (stat : MStat)
    (l : List (Option ℕ)) (p : ℕ) (row : List Val)
    (hok : allNaN_arg G stat = .ok l) (hrow : G.get? p = some row)
    (hnan : allNaN row = true) : l.get? p = some none := by
  cases stat with
  | mmax =>
      unfold allNaN_arg at hok
      simp only [Bind.bind, Except.bind] at hok
      cases ha : argmaxSkipna (G.map fun r => fillna r (vsub (gridMin G) (some 1))) with
      | error e => rw [ha] at hok; cases hok
      | ok idxs =>
          rw [ha] at hok
          simp only [pure, Except.pure, Except.ok.injEq] at hok
          subst hok
          unfold argmaxSkipna at ha
          by_cases hany : (G.map fun r => fillna r (vsub (gridMin G) (some 1))).any allNaN = true
          · simp [hany] at ha
          · simp [hany] at ha
            subst ha
            have h1 : (G.map allNaN).get? p = some true := by
              rw [List.get?_map, hrow]; simp [hnan]
            have h2 : ((G.map fun r => fillna r (vsub (gridMin G) (some 1))).map nanargmaxIdx).get? p
                = some (nanargmaxIdx (fillna row (vsub (gridMin G) (some 1)))) := by
              rw [List.get?_map, List.get?_map, hrow]; rfl
            have := get?_zipWith (fun m i => if m then none else some i)
              (G.map allNaN) _ p true _ h1 h2
            simpa using this
  | mmin =>
      unfold allNaN_arg at hok
      simp only [Bind.bind, Except.bind] at hok
      cases ha : argminSkipna (G.map fun r => fillna r (vadd (gridMax G) (some 1))) with
      | error e => rw [ha] at hok; cases hok
      | ok idxs =>
          rw [ha] at hok
          simp only [pure, Except.pure, Except.ok.injEq] at hok
          subst hok
          unfold argminSkipna at ha
          by_cases hany : (G.map fun r => fillna r (vadd (gridMax G) (some 1))).any allNaN = true
          · simp [hany] at ha
          · simp [hany] at ha
            subst ha
            have h1 : (G.map allNaN).get? p = some true := by
              rw [List.get?_map, hrow]; simp [hnan]
            have h2 : ((G.map fun r => fillna r (vadd (gridMax G) (some 1))).map nanargminIdx).get? p
                = some (nanargminIdx (fillna row (vadd (gridMax G) (some 1)))) := by
              rw [List.get?_map, List.get?_map, hrow]; rfl
            have := get?_zipWith (fun m i => if m then none else some i)
              (G.map allNaN) _ p true _ h1 h2
            simpa using this

theorem computeStats_ok (g : Grid) (ms me : String)
    (sd : List (String × List Val)) (h : computeStats g ms me = .ok sd) :
    ∃ vp ve,
      _vsos g.times (zeroFill g.pixels) (posIdxs (zeroFill g.pixels)) ms =
        .ok vp ∧
      _veos g.times (zeroFill g.pixels) (posIdxs (zeroFill g.pixels)) me =
        .ok ve ∧
      sd = statsOf g vp ve := by
  unfold computeStats at h
  simp only [Bind.bind, Except.bind] at h
  cases hv : _vsos g.times (zeroFill g.pixels) (posIdxs (zeroFill g.pixels))
      ms with
  | error e => rw [hv] at h; cases h
  | ok vp =>
      rw [hv] at h
      cases he : _veos g.times (zeroFill g.pixels)
          (posIdxs (zeroFill g.pixels)) me with
      | error e => rw [he] at h; cases h
      | ok ve =>
          rw [he] at h
          simp only [pure, Except.pure, Except.ok.injEq] at h
          exact ⟨vp, ve, rfl, rfl, h.symm⟩

theorem computeStats_mk (g : Grid) (ms me : String)
    (vp ve : List (Val × ℕ))
    (hv : _vsos g.times (zeroFill g.pixels) (posIdxs (zeroFill g.pixels)) ms =
      .ok vp)
    (he : _veos g.times (zeroFill g.pixels) (posIdxs (zeroFill g.pixels)) me =
      .ok ve) :
    computeStats g ms me = .ok (statsOf g vp ve) := by
  unfold computeStats
  simp only [Bind.bind, Except.bind, hv, he, pure, Except.pure]

theorem statsOf_vPOS (g : Grid) (vp ve : List (Val × ℕ)) :
    dsLookup (statsOf g vp ve) "vPOS" = some (_vpos (zeroFill g.pixels)) := by
  simp [statsOf, dsLookup]

theorem statsOf_Trough (g : Grid) (vp ve : List (Val × ℕ)) :
    dsLookup (statsOf g vp ve) "Trough" =
      some (_trough (zeroFill g.pixels)) := by
  simp [statsOf, dsLookup]

theorem statsOf_AOS (g : Grid) (vp ve : List (Val × ℕ)) :
    dsLookup (statsOf g vp ve) "AOS" =
      some (_aos (_vpos (zeroFill g.pixels)) (_trough (zeroFill g.pixels))) := by
  simp [statsOf, dsLookup]

theorem statsOf_vSOS (g : Grid) (vp ve : List (Val × ℕ)) :
    dsLookup (statsOf g vp ve) "vSOS" = some (vp.map Prod.fst) := by
  simp [statsOf, dsLookup]

theorem statsOf_SOS (g : Grid) (vp ve : List (Val × ℕ)) :
    dsLookup (statsOf g vp ve) "SOS" =
      some ((_sos g.doys vp).map fun z => some ((i16 z : ℤ) : ℚ)) := by
  simp [statsOf, dsLookup]

theorem dsLookup_overwrite (k : String) (v : List Val) (j : String)
    (ds : List (String × List Val)) :
    dsLookup (ds.map fun p => if p.1 = k then (k, v) else p) j =
      if j = k then
        (if ds.any (fun p => decide (p.1 = k)) = true then some v else none)
      else dsLookup ds j := by
  induction ds with
  | nil => by_cases hj : j = k <;> simp [dsLookup, hj]
  | cons p ds ih =>
      by_cases hp : p.1 = k
      · have hany : (decide (p.1 = k) || ds.any fun p => decide (p.1 = k))
            = true := by simp [hp]
        simp only [List.map, if_pos hp, List.any_cons, hany, dsLookup]
        by_cases hj : j = k
        · subst hj; simp [dsLookup]
        · rw [if_neg (fun hh : k = j => hj hh.symm), if_neg hj, ih,
            if_neg hj, if_neg (fun hh : p.1 = j => hj (hp ▸ hh ▸ rfl))]
      · have hany : (decide (p.1 = k) || ds.any fun p => decide (p.1 = k))
            = (ds.any fun p => decide (p.1 = k)) := by simp [hp]
        simp only [List.map, if_neg hp, List.any_cons, hany, dsLookup]
        by_cases hpj : p.1 = j
        · have hj : ¬ j = k := fun hh => hp (hpj ▸ hh ▸ rfl)
          rw [if_pos hpj, if_neg hj, if_pos hpj]
        · rw [if_neg hpj, ih, if_neg hpj]

theorem dsLookup_append_one (k : String) (v : List Val) (j : String)
    (ds : List (String × List Val)) :
    dsLookup (ds ++ [(k, v)]) j =
      match dsLookup ds j with
      | some w => some w
      | none => if k = j then some v else none := by
  induction ds with
  | nil => simp [dsLookup]
  | cons p ds ih =>
      by_cases hpj : p.1 = j
      · simp [dsLookup, hpj]
      · simp only [List.cons_append, dsLookup, if_neg hpj]
        exact ih

theorem dsLookup_some_any (ds : List (String × List Val)) (j : String)
    (w : List Val) (h : dsLookup ds j = some w) :
    ds.any (fun p => decide (p.1 = j)) = true := by
  induction ds with
  | nil => simp [dsLookup] at h
  | cons p ds ih =>
      by_cases hpj : p.1 = j
      · simp [hpj]
      · simp only [dsLookup, if_neg hpj] at h
        simp [ih h]

theorem dsAssign_lookup (ds : List (String × List Val)) (k : String)
    (v : List Val) (j : String) :
    dsLookup (dsAssign ds k v) j = if j = k then some v else dsLookup ds j := by
  unfold dsAssign
  by_cases hmem : ds.any (fun p => decide (p.1 = k)) = true
  · rw [if_pos hmem, dsLookup_overwrite, if_pos hmem]
  · rw [if_neg hmem, dsLookup_append_one]
    cases hd : dsLookup ds j with
    | some w =>
        have hj : ¬ j = k := fun hh =>
          hmem (hh ▸ dsLookup_some_any ds j w hd)
        simp [hj]
    | none =>
        by_cases hj : j = k
        · simp [hj]
        · rw [if_neg hj, if_neg (fun hh : k = j => hj hh.symm)]

theorem foldAssign_lookup (sd : List (String × List Val)) :
    ∀ (rest : List String) (ds0 ds' : List (String × List Val)),
      rest.foldlM (assembleStep sd) ds0 = .ok ds' →
      ∀ j, dsLookup ds' j =
        if j ∈ rest then dsLookup sd j else dsLookup ds0 j := by
  intro rest
  induction rest with
  | nil =>
      intro ds0 ds' h j
      simp only [List.foldlM, pure, Except.pure, Except.ok.injEq] at h
      subst h
      simp
  | cons s rest ih =>
      intro ds0 ds' h j
      simp only [List.foldlM, Bind.bind, Except.bind] at h
      cases hs : dsLookup sd s with
      | none => rw [assembleStep, hs] at h; cases h
      | some v =>
          rw [assembleStep, hs] at h
          have hstep := ih (dsAssign ds0 s v) ds' h j
          rw [dsAssign_lookup] at hstep
          by_cases hr : j ∈ rest
          · rw [hstep, if_pos hr, if_pos (List.mem_cons_of_mem s hr)]
          · by_cases hj : j = s
            · subst hj
              rw [hstep, if_neg hr, if_pos rfl, if_pos (List.mem_cons_self j rest), hs]
            · rw [hstep, if_neg hr, if_neg hj,
                if_neg (by simp [hj, hr, List.mem_cons])]

theorem assemble_ok_lookup (sd : List (String × List Val))
    (stats : List String) (ds : List (String × List Val))
    (h : assemble sd stats = .ok ds) (j : String) :
    dsLookup ds j = if j ∈ stats then dsLookup sd j else none := by
  cases stats with
  | nil => simp [assemble] at h
  | cons s0 rest =>
      cases h0 : dsLookup sd s0 with
      | none =>
          simp only [assemble, h0, Bind.bind, Except.bind] at h
          exact Except.noConfusion h
      | some g0 =>
          simp only [assemble, h0, Bind.bind, Except.bind] at h
          have := foldAssign_lookup sd rest [(s0, g0)] ds h j
          rw [this]
          by_cases hr : j ∈ rest
          · rw [if_pos hr, if_pos (List.mem_cons_of_mem s0 hr)]
          · by_cases hj : j = s0
            · subst hj
              rw [if_neg hr, if_pos (List.mem_cons_self j rest)]
              simp [dsLookup, h0]
            · rw [if_neg hr, if_neg (by simp [hj, hr, List.mem_cons])]
              simp only [dsLookup,
                if_neg (fun hh : s0 = j => hj hh.symm)]

theorem foldAssign_ok (sd : List (String × List Val)) :
    ∀ (rest : List String) (ds0 : List (String × List Val)),
      (∀ s, s ∈ rest → (dsLookup sd s).isSome) →
      ∃ ds', rest.foldlM (assembleStep sd) ds0 = .ok ds' := by
  intro rest
  induction rest with
  | nil => intro ds0 _; exact ⟨ds0, rfl⟩
  | cons s rest ih =>
      intro ds0 hall
      have hs := hall s (List.mem_cons_self s rest)
      cases hsv : dsLookup sd s with
      | none => rw [hsv] at hs; cases hs
      | some v =>
          obtain ⟨ds', hds'⟩ := ih (dsAssign ds0 s v)
            (fun t ht => hall t (List.mem_cons_of_mem s ht))
          refine ⟨ds', ?_⟩
          simp only [List.foldlM, Bind.bind, Except.bind, assembleStep, hsv]
          exact hds'

theorem assemble_ok_of (sd : List (String × List Val)) (stats : List String)
    (hne : stats ≠ [])
    (hall : ∀ s, s ∈ stats → (dsLookup sd s).isSome) :
    ∃ ds, assemble sd stats = .ok ds := by
  cases stats with
  | nil => exact absurd rfl hne
  | cons s0 rest =>
      have h0 := hall s0 (List.mem_cons_self s0 rest)
      cases h0v : dsLookup sd s0 with
      | none => rw [h0v] at h0; cases h0
      | some g0 =>
          obtain ⟨ds, hds⟩ := foldAssign_ok sd rest [(s0, g0)]
            (fun t ht => hall t (List.mem_cons_of_mem s0 ht))
          refine ⟨ds, ?_⟩
          simp only [assemble, h0v, Bind.bind, Except.bind]
          exact hds

theorem foldAssign_mem (sd : List (String × List Val)) :
    ∀ (rest : List String) (ds0 ds' : List (String × List Val)),
      rest.foldlM (assembleStep sd) ds0 = .ok ds' →
      ∀ s, s ∈ rest → (dsLookup sd s).isSome := by
  intro rest
  induction rest with
  | nil => intro ds0 ds' _ s hs; cases hs
  | cons t rest ih =>
      intro ds0 ds' h s hs
      simp only [List.foldlM, Bind.bind, Except.bind] at h
      cases htv : dsLookup sd t with
      | none => rw [assembleStep, htv] at h; cases h
      | some v =>
          rw [assembleStep, htv] at h
          cases List.mem_cons.mp hs with
          | inl hh => subst hh; rw [htv]; rfl
          | inr hh => exact ih (dsAssign ds0 t v) ds' h s hh

theorem assemble_mem_isSome (sd : List (String × List Val))
    (stats : List String) (ds : List (String × List Val))
    (h : assemble sd stats = .ok ds) :
    ∀ s, s ∈ stats → (dsLookup sd s).isSome := by
  cases stats with
  | nil => simp [assemble] at h
  | cons s0 rest =>
      intro s hs
      cases h0 : dsLookup sd s0 with
      | none =>
          simp only [assemble, h0, Bind.bind, Except.bind] at h
          exact Except.noConfusion h
      | some g0 =>
          simp only [assemble, h0, Bind.bind, Except.bind] at h
          cases List.mem_cons.mp hs with
          | inl hh => subst hh; rw [h0]; rfl
          | inr hh => exact foldAssign_mem sd rest [(s0, g0)] ds h s hh

theorem xr_eager_ok (g : Grid) (stats : List String) (ms me : String)
    (xrv : Bool) (r : PhenoResult)
    (h : xr_phenology g stats ms me false xrv = .ok r) :
    (ms = "median" ∨ ms = "first") ∧ (me = "median" ∨ me = "last") ∧
    ∃ sd ds, computeStats g ms me = .ok sd ∧ assemble sd stats = .ok ds ∧
      r = .eager ds := by
  by_cases h1 : ms = "median" ∨ ms = "first"
  · by_cases h2 : me = "median" ∨ me = "last"
    · refine ⟨h1, h2, ?_⟩
      simp only [xr_phenology, if_neg Bool.false_ne_true,
        if_neg (not_not_intro h1), if_neg (not_not_intro h2), Bind.bind,
        Except.bind] at h
      cases hcs : computeStats g ms me with
      | error e =>
          simp only [hcs] at h
          exact Except.noConfusion h
      | ok sd =>
          simp only [hcs] at h
          cases has : assemble sd stats with
          | error e =>
              simp only [has] at h
              exact Except.noConfusion h
          | ok ds =>
              simp only [has, pure, Except.pure, Except.ok.injEq] at h
              exact ⟨sd, ds, rfl, has, h.symm⟩
    · simp only [xr_phenology, if_neg Bool.false_ne_true,
        if_neg (not_not_intro h1), if_pos h2] at h
      exact Except.noConfusion h
  · simp only [xr_phenology, if_neg Bool.false_ne_true, if_pos h1] at h
    exact Except.noConfusion h

theorem xr_eager_mk (g : Grid) (stats : List String) (ms me : String)
    (xrv : Bool) (sd ds : List (String × List Val))
    (h1 : ms = "median" ∨ ms = "first") (h2 : me = "median" ∨ me = "last")
    (hcs : computeStats g ms me = .ok sd) (has : assemble sd stats = .ok ds) :
    xr_phenology g stats ms me false xrv = .ok (.eager ds) := by
  simp only [xr_phenology, if_neg Bool.false_ne_true,
    if_neg (not_not_intro h1), if_neg (not_not_intro h2), Bind.bind,
    Except.bind, hcs, has, pure, Except.pure]

theorem resultStat_lookup (g : Grid) (stats : List String) (ms me : String)
    (xrv : Bool) (sd : List (String × List Val))
    (h1 : ms = "median" ∨ ms = "first") (h2 : me = "median" ∨ me = "last")
    (hcs : computeStats g ms me = .ok sd) (hne : stats ≠ [])
    (hall : ∀ s, s ∈ stats → (dsLookup sd s).isSome) (j : String) :
    resultStat (xr_phenology g stats ms me false xrv) j =
      if j ∈ stats then dsLookup sd j else none := by
  obtain ⟨ds, hds⟩ := assemble_ok_of sd stats hne hall
  rw [xr_eager_mk g stats ms me xrv sd ds h1 h2 hcs hds]
  simp only [resultStat]
  exact assemble_ok_lookup sd stats ds hds j

/-! Section: Claim theorems -/

/-- C9: for a chunked (lazily-evaluated) input on an xarray version older
than 0.16.0, `xr_phenology` raises `TypeError` (the spec's
`UnsupportedEnvironment`) immediately, for every grid, request and
configuration; it never falls back to eager execution and never returns a
result. -/
theorem C9_chunked_old_xarray_fails (g : Grid) (stats : List String)
    (ms me : String) :
    xr_phenology g stats ms me true false = .error .typeError := by
  simp [xr_phenology]

/-- C6 (amended): for an EAGER invocation, an unsupported `method_sos` or
`method_eos` makes `xr_phenology` fail with `ValueError` (the spec's
`InvalidConfiguration`) before any statistic is computed, and no output
collection is produced.  Chunked invocations skip this validation — see the
counterexample. -/
theorem C6_eager_invalid_method_fails (g : Grid) (stats : List String)
    (ms me : String) (xrv : Bool)
    (h : ¬ (ms = "median" ∨ ms = "first") ∨
      ¬ (me = "median" ∨ me = "last")) :
    xr_phenology g stats ms me false xrv = .error .valueError := by
  cases h with
  | inl h1 =>
      simp only [xr_phenology, if_neg Bool.false_ne_true, if_pos h1]
  | inr h2 =>
      by_cases h1 : ms = "median" ∨ ms = "first"
      · simp only [xr_phenology, if_neg Bool.false_ne_true,
          if_neg (not_not_intro h1), if_pos h2]
      · simp only [xr_phenology, if_neg Bool.false_ne_true, if_pos h1]

/-- Witness for C6: a concrete eager invocation with a bogus `method_sos`
fails with `ValueError`. -/
theorem C6_eager_invalid_method_fails_witness :
    xr_phenology c8grid ["SOS"] "bogus" "last" false true =
      .error .valueError :=
  C6_eager_invalid_method_fails c8grid ["SOS"] "bogus" "last" true
    (Or.inl (by simp))

/-- C6 (counterexample): the same bogus `method_sos` on a CHUNKED input does
not fail — the dask branch (temporal.py 277–322) returns the deferred
result without ever validating the method selectors, so the claim's "every
invocation fails before any computation" is false for chunked inputs. -/
theorem C6_chunked_skips_validation :
    xr_phenology c8grid ["SOS"] "bogus" "last" true true =
      .ok (.deferred ["SOS"] ["SOS"] "bogus" "last") := by
  simp [xr_phenology, statOrder]

/-- C3: the code evaluated at the failing input.  `_veos` with
`method_eos = "last"` selects index 3 (value 0.5) of the series
[0, 5, 1, 0.5, 2], although the derivative of the senescing side at index 3
is +1/2 > 0 — a rising sample.  The negative-slope restriction the claim
(and the source's own comments) describe is not applied, because
`where(~isnan(senesce_deriv < 0))` is a no-op on a boolean array and
`where(neg_senesce_deriv)` tests nonzero-or-NaN, not negativity. -/
theorem C3_veos_selects_rising_sample :
    _veos times5 [c3row] [1] "last" = .ok [(some (1/2), 3)] ∧
    (npGradient times5 (senesceRow times5 c3row 1)).get? 3 =
      some (some (1/2)) ∧
    (0 : ℚ) < 1/2 := by
  refine ⟨veos_c3, ?_, by norm_num⟩
  rw [sen_c3, grad_c3]
  rfl

/-- C10: at pixel 0 of `c10grid` the peak position and the start-of-season
position coincide (day-of-year 100 on both sides of a year boundary), the
green-up rate is computed by the unguarded division `_rog` with denominator
POS − SOS = 0, the pipeline does not raise, and the ROG cell is non-finite
(`none`). -/
theorem C10_rate_division_by_zero :
    resultStat (xr_phenology c10grid ["POS", "SOS", "ROG"] "first" "last"
      false true) "POS" = some [some 100, some 100] ∧
    resultStat (xr_phenology c10grid ["POS", "SOS", "ROG"] "first" "last"
      false true) "SOS" = some [some 100, some 100] ∧
    resultStat (xr_phenology c10grid ["POS", "SOS", "ROG"] "first" "last"
      false true) "ROG" = some [none, none] ∧
    _rog [some (9/10)] [some (1/10)] [100] [100] = [none] := by
  refine ⟨?_, ?_, ?_, by norm_num [_rog, vsub, vdiv]⟩ <;>
    (rw [final_c10]; simp [resultStat, dsLookup])

/-- C8: the in-memory series [0.1, 0.2, 0.3, 0.9, 0.5, 0.2] over six evenly
spaced monthly timestamps starting at day-of-year 1 peaks with value 0.9 at
the fourth month (index 3), has trough 0.1 and amplitude 0.8, and the
request ["vPOS", "Trough", "AOS"] returns exactly those three fields and no
others. -/
theorem C8_example_pipeline :
    xr_phenology c8grid ["vPOS", "Trough", "AOS"] "first" "last" false true =
      .ok (.eager [("vPOS", [some (9/10)]), ("Trough", [some (1/10)]),
                   ("AOS", [some (4/5)])]) ∧
    posIdxs (zeroFill c8grid.pixels) = [3] := by
  constructor
  · exact xr_eager_mk c8grid _ "first" "last" true c8sd _ (Or.inr rfl)
      (Or.inr rfl) cs_c8 asm_c8
  · simp only [c8grid]
    rw [zf_c8, ps_c8]

/-- C1 (counterexample): pixel 0 of `c1grid` has an entirely-NaN time
series, yet the pipeline (eager mode, all eleven statistics requested)
reports vPOS = 0.0 there — a numeric value, not the NaN sentinel.  The
all-NaN mask zero-fills the pixel before the reductions and is never
reapplied to the outputs. -/
theorem C1_allNaN_pixel_gets_numeric_value :
    allNaN ([none, none, none, none] : List Val) = true ∧
    resultStat (xr_phenology c1grid statOrder "first" "last" false true)
      "vPOS" = some [some 0, some (9/10)] := by
  refine ⟨rfl, ?_⟩
  rw [final_c1]
  simp [resultStat, dsLookup]

/-- C4 (counterexample): on the year-crossing series of `c4grid` the
pipeline reports season length −160 < 0.  The wrap constant is the LAST
timestamp's day-of-year (60), which is smaller than the start position
(280), so the wrap rule does not make the length nonnegative. -/
theorem C4_negative_season_length :
    resultStat (xr_phenology c4grid ["SOS", "EOS", "LOS"] "first" "last"
      false true) "LOS" = some [some (-160)] ∧ (-160 : ℚ) < 0 := by
  constructor
  · rw [xr_eager_mk c4grid _ "first" "last" true c4sd _ (Or.inr rfl)
      (Or.inr rfl) cs_c4 asm_c4]
    simp [resultStat, dsLookup]
  · norm_num

/-- C5 (counterexample): pixel 0 of `c5grid` has no qualifying rising
sample (its `pos_greenup` series is entirely NaN), and the start-of-season
VALUE is indeed the NaN sentinel — but the start-of-season POSITION is the
numeric day-of-year 10 (the first timestamp), fabricated by the NaN→int16
cast of the sentinel index. -/
theorem C5_fabricated_SOS_position :
    allNaN (pos_greenupRow times4 fallRow 0) = true ∧
    resultStat (xr_phenology c5grid ["SOS", "vSOS"] "first" "last" false
      true) "SOS" = some [some 10, some 10] ∧
    resultStat (xr_phenology c5grid ["SOS", "vSOS"] "first" "last" false
      true) "vSOS" = some [none, some (1/10)] := by
  refine ⟨by rw [pg0_c5]; rfl, ?_, ?_⟩ <;>
    (rw [final_c5]; simp [resultStat, dsLookup])

/-- C2 (counterexample): on a grid with no valid cell at all (one pixel,
entirely NaN), the fill value `da.min() − 1` is itself NaN, the fill is a
no-op and the argmax/argmin reduction raises the all-NaN-slice
`ValueError` — the all-invalid pixel gets no sentinel result because the
call returns nothing at all. -/
theorem C2_all_invalid_grid_raises :
    allNaN_arg [[(none : Val)]] .mmax = .error .valueError ∧
    allNaN_arg [[(none : Val)]] .mmin = .error .valueError := by
  constructor <;>
    norm_num [allNaN_arg, argmaxSkipna, argminSkipna, gridMin, gridMax,
      nanmin, nanmax, vminSkip, vmaxSkip, fillna, allNaN, isnull,
      Option.isNone, vadd, vsub, Bind.bind, Except.bind]

/-- C4 (amended): `_los` computes exactly the claimed expression — end
position minus start position, or the last timestamp's day-of-year plus the
negative difference — and that expression is nonnegative PROVIDED the start
position does not exceed the day-of-year of the last timestamp (as holds
when the series stays within one calendar year); a year-crossing series can
make it negative (see the counterexample). -/
theorem C4_los_formula (doys : List ℤ) :
    (∀ eos sos : List ℤ, _los doys eos sos =
      List.zipWith (specSeasonLength (doys.getD (doys.length - 1) 0))
        eos sos) ∧
    ∀ L e s : ℤ, s ≤ L → 0 ≤ e → 0 ≤ specSeasonLength L e s := by
  constructor
  · intro eos
    induction eos with
    | nil => intro sos; rfl
    | cons e es ih =>
        intro sos
        cases sos with
        | nil => rfl
        | cons s ss =>
            show (if 0 ≤ e - s then e - s
                else doys.getD (doys.length - 1) 0 + (e - s)) ::
                List.zipWith _ es ss =
              specSeasonLength _ e s :: List.zipWith _ es ss
            congr 1
            · unfold specSeasonLength
              by_cases hc : s ≤ e
              · rw [if_pos (by omega : (0:ℤ) ≤ e - s), if_pos hc]
              · rw [if_neg (by omega : ¬ (0:ℤ) ≤ e - s), if_neg hc]
            · exact ih ss
  · intro L e s h1 h2
    unfold specSeasonLength
    by_cases hc : s ≤ e
    · rw [if_pos hc]; omega
    · rw [if_neg hc]; omega

/-- Witness for C4 (amended) at a concrete input. -/
theorem C4_los_formula_witness :
    _los [10] [5] [3] = List.zipWith (specSeasonLength 10) [5] [3] ∧
    0 ≤ specSeasonLength 10 5 3 := by
  have h := C4_los_formula [10]
  exact ⟨by simpa using h.1 [5] [3], h.2 10 5 3 (by norm_num) (by norm_num)⟩

theorem replicate0_nanmax (n : ℕ) (hn : n ≠ 0) :
    nanmax (List.replicate n (some 0 : Val)) = some 0 := by
  induction n with
  | zero => exact absurd rfl hn
  | succ k ih =>
      cases k with
      | zero => simp [List.replicate, nanmax, vmaxSkip]
      | succ m =>
          rw [List.replicate, nanmax, ih (by simp)]
          simp [vmaxSkip]

theorem replicate0_nanmin (n : ℕ) (hn : n ≠ 0) :
    nanmin (List.replicate n (some 0 : Val)) = some 0 := by
  induction n with
  | zero => exact absurd rfl hn
  | succ k ih =>
      cases k with
      | zero => simp [List.replicate, nanmin, vminSkip]
      | succ m =>
          rw [List.replicate, nanmin, ih (by simp)]
          simp [vminSkip]

/-- C1 (amended): for every grid on which the eager computation succeeds and
every nonempty all-NaN pixel, the computed vPOS, Trough and AOS at that
pixel equal the NUMBER 0 — the statistics of the zero-filled series — not
the NaN sentinel.  The all-NaN mask is never reapplied to the outputs. -/
theorem C1_allNaN_pixel_zero_stats (g : Grid) (ms me : String)
    (sd : List (String × List Val)) (p : ℕ) (row : List Val)
    (hcs : computeStats g ms me = .ok sd)
    (hrow : g.pixels.get? p = some row)
    (hnan : allNaN row = true) (hne : row ≠ []) :
    ∃ vposG troughG aosG,
      dsLookup sd "vPOS" = some vposG ∧ vposG.get? p = some (some 0) ∧
      dsLookup sd "Trough" = some troughG ∧
      troughG.get? p = some (some 0) ∧
      dsLookup sd "AOS" = some aosG ∧ aosG.get? p = some (some 0) := by
  obtain ⟨vp, ve, hv, he, rfl⟩ := computeStats_ok g ms me sd hcs
  have hzf : (zeroFill g.pixels).get? p =
      some (row.map fun _ => some 0) := by
    unfold zeroFill
    rw [List.get?_map, hrow]
    simp [hnan]
  have hvpos : (_vpos (zeroFill g.pixels)).get? p = some (some 0) := by
    unfold _vpos
    rw [List.get?_map, hzf]
    simp [replicate0_nanmax row.length
      (fun h => hne (List.length_eq_zero.mp h))]
  have htrough : (_trough (zeroFill g.pixels)).get? p = some (some 0) := by
    unfold _trough
    rw [List.get?_map, hzf]
    simp [replicate0_nanmin row.length
      (fun h => hne (List.length_eq_zero.mp h))]
  have haos : (_aos (_vpos (zeroFill g.pixels))
      (_trough (zeroFill g.pixels))).get? p = some (some 0) := by
    unfold _aos
    have := get?_zipWith vsub (_vpos (zeroFill g.pixels))
      (_trough (zeroFill g.pixels)) p (some 0) (some 0) hvpos htrough
    simpa [vsub] using this
  exact ⟨_, _, _, statsOf_vPOS g vp ve, hvpos, statsOf_Trough g vp ve,
    htrough, statsOf_AOS g vp ve, haos⟩

/-- Witness for C1 (amended) at the concrete grid `c1grid`, pixel 0. -/
theorem C1_allNaN_pixel_zero_stats_witness :
    ∃ vposG troughG aosG,
      dsLookup c1sd "vPOS" = some vposG ∧ vposG.get? 0 = some (some 0) ∧
      dsLookup c1sd "Trough" = some troughG ∧
      troughG.get? 0 = some (some 0) ∧
      dsLookup c1sd "AOS" = some aosG ∧ aosG.get? 0 = some (some 0) :=
  C1_allNaN_pixel_zero_stats c1grid "first" "last" c1sd 0
    [none, none, none, none] cs_c1 rfl rfl (by simp)

/-- At a pixel whose `pos_greenup` series is entirely NaN (no qualifying
rising sample), a successful `_vsos` yields the pair
(NaN value, index 0): the sentinel row index is masked to NaN, cast to 0 by
`.astype("int16")`, and `isel` then selects position 0 of the all-NaN
series. -/
theorem vsos_ok_at_allNaN (ts : List ℚ) (G : List (List Val)) (ps : List ℕ)
    (m : String) (vp : List (Val × ℕ)) (p : ℕ) (zrow : List Val) (pk : ℕ)
    (hm : m = "first" ∨ m = "median")
    (hv : _vsos ts G ps m = .ok vp)
    (hzrow : G.get? p = some zrow) (hpk : ps.get? p = some pk)
    (hng : allNaN (pos_greenupRow ts zrow pk) = true) :
    vp.get? p = some (none, 0) := by
  unfold _vsos at hv
  simp only [Bind.bind, Except.bind] at hv
  have hpg : (List.zipWith (pos_greenupRow ts) G ps).get? p =
      some (pos_greenupRow ts zrow pk) :=
    get?_zipWith _ G ps p _ _ hzrow hpk
  have hdist : ((List.zipWith (pos_greenupRow ts) G ps).map distRow).get? p
      = some (distRow (pos_greenupRow ts zrow pk)) := by
    rw [List.get?_map, hpg]; rfl
  cases hm with
  | inl h =>
      subst h
      rw [if_pos rfl] at hv
      cases hidx : allNaN_arg
          ((List.zipWith (pos_greenupRow ts) G ps).map distRow) .mmin with
      | error e => rw [hidx] at hv; exact Except.noConfusion hv
      | ok idxO =>
          rw [hidx] at hv
          simp only [pure, Except.pure, Except.ok.injEq] at hv
          subst hv
          have hn : idxO.get? p = some none :=
            allNaN_arg_ok_at _ .mmin idxO p _ hidx hdist
              (distRow_allNaN _ hng)
          have hcast : (idxO.map idxCast).get? p = some 0 := by
            rw [List.get?_map, hn]; rfl
          have hz := get?_zipWith (fun row i => (row.getD i none, i))
            (List.zipWith (pos_greenupRow ts) G ps) (idxO.map idxCast) p _ 0
            hpg hcast
          rw [hz]
          simp only [getD_zero_allNaN _ hng]
  | inr h =>
      subst h
      rw [if_neg (by simp), if_pos rfl] at hv
      cases hidx : allNaN_arg
          (((List.zipWith (pos_greenupRow ts) G ps).map distRow).map
            fun r => r.map vfabs) .mmin with
      | error e => rw [hidx] at hv; exact Except.noConfusion hv
      | ok idxO =>
          rw [hidx] at hv
          simp only [pure, Except.pure, Except.ok.injEq] at hv
          subst hv
          have habs : ((((List.zipWith (pos_greenupRow ts) G ps).map
              distRow).map fun r => r.map vfabs)).get? p =
              some ((distRow (pos_greenupRow ts zrow pk)).map vfabs) := by
            rw [List.get?_map, hdist]; rfl
          have hn : idxO.get? p = some none :=
            allNaN_arg_ok_at _ .mmin idxO p _ hidx habs
              (map_vfabs_allNaN _ (distRow_allNaN _ hng))
          have hcast : (idxO.map idxCast).get? p = some 0 := by
            rw [List.get?_map, hn]; rfl
          have hz := get?_zipWith (fun row i => (row.getD i none, i))
            (List.zipWith (pos_greenupRow ts) G ps) (idxO.map idxCast) p _ 0
            hpg hcast
          rw [hz]
          simp only [getD_zero_allNaN _ hng]

/-- C5 (amended): at every pixel with no qualifying rising sample on the
greening side (its `pos_greenup` series is entirely NaN), a successful
eager computation reports the start-of-season VALUE as the NaN sentinel,
but the start-of-season POSITION as the day-of-year of the FIRST timestamp
— a fabricated numeric value produced by the NaN→int16 cast of the
sentinel index, not a missing value. -/
theorem C5_no_rising_sample (g : Grid) (ms me : String)
    (sd : List (String × List Val)) (p : ℕ) (zrow : List Val) (pk : ℕ)
    (hms : ms = "first" ∨ ms = "median")
    (hcs : computeStats g ms me = .ok sd)
    (hzrow : (zeroFill g.pixels).get? p = some zrow)
    (hpk : (posIdxs (zeroFill g.pixels)).get? p = some pk)
    (hng : allNaN (pos_greenupRow g.times zrow pk) = true) :
    ∃ vsosG sosG,
      dsLookup sd "vSOS" = some vsosG ∧ vsosG.get? p = some none ∧
      dsLookup sd "SOS" = some sosG ∧
      sosG.get? p = some (some ((i16 (g.doys.getD 0 0) : ℤ) : ℚ)) := by
  obtain ⟨vp, ve, hv, he, rfl⟩ := computeStats_ok g ms me sd hcs
  have hvp : vp.get? p = some (none, 0) :=
    vsos_ok_at_allNaN g.times (zeroFill g.pixels)
      (posIdxs (zeroFill g.pixels)) ms vp p zrow pk hms hv hzrow hpk hng
  refine ⟨_, _, statsOf_vSOS g vp ve, ?_, statsOf_SOS g vp ve, ?_⟩
  · rw [List.get?_map, hvp]; rfl
  · unfold _sos
    rw [List.get?_map, List.get?_map, hvp]
    rfl

/-- Witness for C5 (amended) at the concrete grid `c5grid`, pixel 0. -/
theorem C5_no_rising_sample_witness :
    ∃ vsosG sosG,
      dsLookup c5sd "vSOS" = some vsosG ∧ vsosG.get? 0 = some none ∧
      dsLookup c5sd "SOS" = some sosG ∧
      sosG.get? 0 = some (some ((i16 (c5grid.doys.getD 0 0) : ℤ) : ℚ)) :=
  C5_no_rising_sample c5grid "first" "last" c5sd 0 fallRow 0
    (Or.inl rfl) cs_c5
    (by simp only [c5grid]; rw [zf_c5]; rfl)
    (by simp only [c5grid]; rw [zf_c5, ps_c5]; rfl)
    (by simp only [c5grid]; rw [pg0_c5]; rfl)

/-- C7: for any two nonempty requested-statistics lists A ⊆ B such that the
eager pipeline succeeds under request B, (i) each statistic in A has the
same value grid under request A as under request B, (ii) the output of
request A contains exactly the statistics of A, and (iii) every requested
value grid is the corresponding entry of the request-independent
`computeStats` dictionary — all eleven statistics are computed regardless
of the request, and assembly merely selects. -/
theorem C7_subset_request (g : Grid) (A B : List String) (ms me : String)
    (hA : A ≠ []) (hAB : ∀ s, s ∈ A → s ∈ B)
    (hok : ∃ r, xr_phenology g B ms me false true = .ok r) :
    (∀ s, s ∈ A →
      resultStat (xr_phenology g A ms me false true) s =
        resultStat (xr_phenology g B ms me false true) s) ∧
    (∀ s, (resultStat (xr_phenology g A ms me false true) s).isSome ↔
      s ∈ A) ∧
    (∀ sd, computeStats g ms me = .ok sd → ∀ s, s ∈ A →
      resultStat (xr_phenology g A ms me false true) s = dsLookup sd s) := by
  obtain ⟨r, hr⟩ := hok
  obtain ⟨h1, h2, sd, dsB, hcs, hasB, rfl⟩ := xr_eager_ok g B ms me true r hr
  have hallB := assemble_mem_isSome sd B dsB hasB
  have hallA : ∀ s, s ∈ A → (dsLookup sd s).isSome := fun s hs =>
    hallB s (hAB s hs)
  have hB : ∀ j, resultStat (xr_phenology g B ms me false true) j =
      if j ∈ B then dsLookup sd j else none := by
    intro j
    rw [hr]
    simp only [resultStat]
    exact assemble_ok_lookup sd B dsB hasB j
  have hA' := resultStat_lookup g A ms me true sd h1 h2 hcs hA hallA
  refine ⟨?_, ?_, ?_⟩
  · intro s hs
    rw [hA' s, hB s, if_pos hs, if_pos (hAB s hs)]
  · intro s
    rw [hA' s]
    by_cases hs : s ∈ A
    · simpa [hs] using hallA s hs
    · simp [hs]
  · intro sd' hcs' s hs
    have hsd : sd' = sd := by
      rw [hcs] at hcs'
      exact (Except.ok.injEq _ _).mp hcs'.symm
    subst hsd
    rw [hA' s, if_pos hs]

/-- Witness for C7 at concrete requests A = ["Trough"] ⊆
B = ["vPOS", "Trough", "AOS"] on `c8grid`. -/
theorem C7_subset_request_witness :
    resultStat (xr_phenology c8grid ["Trough"] "first" "last" false true)
      "Trough" =
    resultStat (xr_phenology c8grid ["vPOS", "Trough", "AOS"] "first" "last"
      false true) "Trough" :=
  (C7_subset_request c8grid ["Trough"] ["vPOS", "Trough", "AOS"] "first"
    "last" (by simp)
    (by intro s hs; simp only [List.mem_singleton] at hs; simp [hs])
    ⟨.eager [("vPOS", [some (9/10)]), ("Trough", [some (1/10)]),
      ("AOS", [some (4/5)])],
     xr_eager_mk c8grid _ "first" "last" true c8sd _ (Or.inr rfl)
       (Or.inr rfl) cs_c8 asm_c8⟩).1 "Trough" (by simp)

theorem nanmax_eq_none_iff (xs : List Val) :
    nanmax xs = none ↔ allNaN xs = true := by
  induction xs with
  | nil => simp [nanmax, allNaN]
  | cons x t ih =>
      cases x with
      | some q =>
          simp only [nanmax, allNaN_cons, isnull]
          cases nanmax t <;> simp [vmaxSkip]
      | none =>
          simp only [nanmax, allNaN_cons, isnull]
          cases hmt : nanmax t with
          | none => simp [vmaxSkip, ih.mp hmt]
          | some m =>
              have hnt : ¬ allNaN t = true := fun hh => by
                rw [ih.mpr hh] at hmt; cases hmt
              simp [vmaxSkip, hnt]

theorem nanmin_eq_none_iff (xs : List Val) :
    nanmin xs = none ↔ allNaN xs = true := by
  induction xs with
  | nil => simp [nanmin, allNaN]
  | cons x t ih =>
      cases x with
      | some q =>
          simp only [nanmin, allNaN_cons, isnull]
          cases nanmin t <;> simp [vminSkip]
      | none =>
          simp only [nanmin, allNaN_cons, isnull]
          cases hmt : nanmin t with
          | none => simp [vminSkip, ih.mp hmt]
          | some m =>
              have hnt : ¬ allNaN t = true := fun hh => by
                rw [ih.mpr hh] at hmt; cases hmt
              simp [vminSkip, hnt]

theorem allNaN_map_min_of_max (G : List (List Val))
    (h : allNaN (G.map nanmax) = true) : allNaN (G.map nanmin) = true := by
  induction G with
  | nil => rfl
  | cons row t ih =>
      rw [List.map, allNaN_cons, Bool.and_eq_true] at h
      rw [List.map, allNaN_cons, Bool.and_eq_true]
      refine ⟨?_, ih h.2⟩
      have hrow : nanmax row = none := by
        have hh := h.1
        simp only [isnull, Option.isNone_iff_eq_none] at hh
        exact hh
      simp only [isnull, Option.isNone_iff_eq_none]
      exact (nanmin_eq_none_iff row).mpr ((nanmax_eq_none_iff row).mp hrow)

theorem gridMax_ne_none (G : List (List Val)) (h : gridMin G ≠ none) :
    gridMax G ≠ none := by
  intro hmax
  apply h
  unfold gridMin
  unfold gridMax at hmax
  rw [nanmin_eq_none_iff]
  rw [nanmax_eq_none_iff] at hmax
  exact allNaN_map_min_of_max G hmax

theorem fillna_map_some (row : List Val) (fv : ℚ) :
    fillna row (some fv) = (substRow fv row).map some := by
  unfold fillna substRow
  rw [List.map_map]
  refine List.map_congr_left ?_
  intro x _
  cases x <;> rfl

theorem allNaN_map_some (ys : List ℚ) (hne : ys ≠ []) :
    allNaN (ys.map some) = false := by
  cases ys with
  | nil => exact absurd rfl hne
  | cons y t => simp [allNaN_cons, isnull]

theorem ne_nil_of_not_allNaN (row : List Val) (h : allNaN row = false) :
    row ≠ [] := by
  intro hh
  subst hh
  cases h

theorem nanmax_map_some (ys : List ℚ) (hne : ys ≠ []) :
    ∃ m, nanmax (ys.map some) = some m ∧
      (∀ k, k < ys.length → ys.getD k 0 ≤ m) ∧
      ∃ k0, k0 < ys.length ∧ ys.getD k0 0 = m := by
  induction ys with
  | nil => exact absurd rfl hne
  | cons x xs ih =>
      cases xs with
      | nil =>
          refine ⟨x, by simp [nanmax, vmaxSkip], ?_, 0, by simp, rfl⟩
          intro k hk
          have hk0 : k = 0 := by simpa using Nat.lt_one_iff.mp (by simpa using hk)
          subst hk0
          simp
      | cons y ys' =>
          obtain ⟨m, hm, hb, k0, hk0, hk0v⟩ := ih (by simp)
          refine ⟨max x m, ?_, ?_, ?_⟩
          · rw [List.map, nanmax, hm]; rfl
          · intro k hk
            cases k with
            | zero => simp [le_max_left]
            | succ k' =>
                have hb' := hb k' (by simpa using hk)
                rw [List.getD_cons_succ]
                exact le_trans hb' (le_max_right x m)
          · by_cases hxm : m ≤ x
            · exact ⟨0, by simp, by simp [max_eq_left hxm]⟩
            · refine ⟨k0 + 1, by simpa using hk0, ?_⟩
              rw [List.getD_cons_succ, hk0v]
              exact (max_eq_right (le_of_not_le hxm)).symm

theorem nanmin_map_some (ys : List ℚ) (hne : ys ≠ []) :
    ∃ m, nanmin (ys.map some) = some m ∧
      (∀ k, k < ys.length → m ≤ ys.getD k 0) ∧
      ∃ k0, k0 < ys.length ∧ ys.getD k0 0 = m := by
  induction ys with
  | nil => exact absurd rfl hne
  | cons x xs ih =>
      cases xs with
      | nil =>
          refine ⟨x, by simp [nanmin, vminSkip], ?_, 0, by simp, rfl⟩
          intro k hk
          have hk0 : k = 0 := by simpa using Nat.lt_one_iff.mp (by simpa using hk)
          subst hk0
          simp
      | cons y ys' =>
          obtain ⟨m, hm, hb, k0, hk0, hk0v⟩ := ih (by simp)
          refine ⟨min x m, ?_, ?_, ?_⟩
          · rw [List.map, nanmin, hm]; rfl
          · intro k hk
            cases k with
            | zero => simp [min_le_left]
            | succ k' =>
                have hb' := hb k' (by simpa using hk)
                rw [List.getD_cons_succ]
                exact le_trans (min_le_right x m) hb'
          · by_cases hxm : x ≤ m
            · exact ⟨0, by simp, by simp [min_eq_left hxm]⟩
            · refine ⟨k0 + 1, by simpa using hk0, ?_⟩
              rw [List.getD_cons_succ, hk0v]
              exact (min_eq_right (le_of_not_le hxm)).symm

theorem firstIdxEq_spec (m : ℚ) (ys : List ℚ)
    (hex : ∃ k0, k0 < ys.length ∧ ys.getD k0 0 = m) :
    firstIdxEq m (ys.map some) < ys.length ∧
    ys.getD (firstIdxEq m (ys.map some)) 0 = m ∧
    ∀ k, k < firstIdxEq m (ys.map some) → ys.getD k 0 ≠ m := by
  induction ys with
  | nil =>
      obtain ⟨k0, hk0, _⟩ := hex
      simp at hk0
  | cons x xs ih =>
      by_cases hx : x = m
      · simp only [List.map, firstIdxEq, if_pos hx]
        exact ⟨by simp, by simpa using hx, fun k hk => absurd hk (by omega)⟩
      · simp only [List.map, firstIdxEq, if_neg hx]
        have hex' : ∃ k0, k0 < xs.length ∧ xs.getD k0 0 = m := by
          obtain ⟨k0, hk0, hv⟩ := hex
          cases k0 with
          | zero => simp at hv; exact absurd hv hx
          | succ k' => exact ⟨k', by simpa using hk0, by simpa using hv⟩
        obtain ⟨h1, h2, h3⟩ := ih hex'
        refine ⟨by simpa using h1, by simpa using h2, ?_⟩
        intro k hk
        cases k with
        | zero => simpa using hx
        | succ k' =>
            rw [List.getD_cons_succ]
            exact h3 k' (by omega)

theorem isFirstMaxIdx_nanargmax (ys : List ℚ) (hne : ys ≠ []) :
    IsFirstMaxIdx ys (nanargmaxIdx (ys.map some)) := by
  obtain ⟨m, hm, hb, hex⟩ := nanmax_map_some ys hne
  unfold nanargmaxIdx
  rw [hm]
  obtain ⟨h1, h2, h3⟩ := firstIdxEq_spec m ys hex
  refine ⟨h1, ?_, ?_⟩
  · intro k hk
    rw [h2]
    exact hb k hk
  · intro k hk
    rw [h2]
    exact lt_of_le_of_ne (hb k (hk.trans h1)) (h3 k hk)

theorem isFirstMinIdx_nanargmin (ys : List ℚ) (hne : ys ≠ []) :
    IsFirstMinIdx ys (nanargminIdx (ys.map some)) := by
  obtain ⟨m, hm, hb, hex⟩ := nanmin_map_some ys hne
  unfold nanargminIdx
  rw [hm]
  obtain ⟨h1, h2, h3⟩ := firstIdxEq_spec m ys hex
  refine ⟨h1, ?_, ?_⟩
  · intro k hk
    rw [h2]
    exact hb k hk
  · intro k hk
    rw [h2]
    exact lt_of_le_of_ne (hb k (hk.trans h1)) (Ne.symm (h3 k hk))

theorem substRow_ne_nil (fv : ℚ) (row : List Val) (h : row ≠ []) :
    substRow fv row ≠ [] := by
  intro hh
  unfold substRow at hh
  exact h (List.map_eq_nil.mp hh)

theorem fill_any_false (G : List (List Val)) (fv : ℚ)
    (hnil : ∀ row, row ∈ G → row ≠ []) :
    (G.map fun row => fillna row (some fv)).any allNaN = false := by
  induction G with
  | nil => rfl
  | cons row t ih =>
      rw [List.map, List.any_cons]
      have h1 : allNaN (fillna row (some fv)) = false := by
        rw [fillna_map_some]
        exact allNaN_map_some _
          (substRow_ne_nil fv row (hnil row (List.mem_cons_self row t)))
      rw [h1, ih (fun r hr => hnil r (List.mem_cons_of_mem row hr))]
      rfl

/-- C2 (amended): provided the grid has at least one valid cell (so the
global fill value is finite) and every pixel series is nonempty,
`allNaN_arg` succeeds and returns, per pixel, the NaN sentinel at every
all-invalid pixel — never index 0 — and at every other pixel the FIRST
index of the extremum of the series obtained by substituting every invalid
entry with global minimum − 1 (`max` mode) / global maximum + 1 (`min`
mode).  On a grid with no valid cell at all it raises instead — see the
counterexample. -/
theorem C2_sentinel_extremum (G : List (List Val)) (stat : MStat)
    (hval : gridMin G ≠ none) (hnil : ∀ row, row ∈ G → row ≠ []) :
    ∃ l, allNaN_arg G stat = .ok l ∧
      ∀ p row, G.get? p = some row →
        (allNaN row = true → l.get? p = some none) ∧
        (allNaN row = false →
          match stat with
          | .mmax => ∃ fv j, vsub (gridMin G) (some 1) = some fv ∧
              l.get? p = some (some j) ∧ IsFirstMaxIdx (substRow fv row) j
          | .mmin => ∃ fv j, vadd (gridMax G) (some 1) = some fv ∧
              l.get? p = some (some j) ∧
              IsFirstMinIdx (substRow fv row) j) := by
  cases stat with
  | mmax =>
      cases hgm : gridMin G with
      | none => exact absurd hgm hval
      | some gm =>
          have hfv : vsub (gridMin G) (some 1) = some (gm - 1) := by
            rw [hgm]; rfl
          have hany :
              (G.map fun row => fillna row (vsub (gridMin G) (some 1))).any
                allNaN = false := by
            rw [hfv]
            exact fill_any_false G (gm - 1) hnil
          have hl : allNaN_arg G .mmax =
              .ok (List.zipWith (fun m i => if m then none else some i)
                (G.map allNaN)
                ((G.map fun row =>
                  fillna row (vsub (gridMin G) (some 1))).map
                    nanargmaxIdx)) := by
            simp only [allNaN_arg, argmaxSkipna, Bind.bind, Except.bind,
              pure, Except.pure]
            rw [hany]
            simp
          refine ⟨_, hl, ?_⟩
          intro p row hrow
          constructor
          · intro hnan
            exact allNaN_arg_ok_at G .mmax _ p row hl hrow hnan
          · intro hvalid
            have h1 : (G.map allNaN).get? p = some false := by
              rw [List.get?_map, hrow]
              simp [hvalid]
            have h2 : ((G.map fun row =>
                fillna row (vsub (gridMin G) (some 1))).map
                  nanargmaxIdx).get? p =
                some (nanargmaxIdx
                  (fillna row (vsub (gridMin G) (some 1)))) := by
              rw [List.get?_map, List.get?_map, hrow]
              rfl
            have h3 := get?_zipWith (fun m i => if m then none else some i)
              (G.map allNaN) _ p false _ h1 h2
            refine ⟨gm - 1,
              nanargmaxIdx (fillna row (vsub (gridMin G) (some 1))), rfl,
              by simpa using h3, ?_⟩
            have hrw : fillna row (vsub (gridMin G) (some 1)) =
                (substRow (gm - 1) row).map some := by
              rw [hfv, fillna_map_some]
            rw [hrw]
            exact isFirstMaxIdx_nanargmax _
              (substRow_ne_nil _ _ (ne_nil_of_not_allNaN row hvalid))
  | mmin =>
      cases hgM : gridMax G with
      | none => exact absurd hgM (gridMax_ne_none G hval)
      | some gM =>
          have hfv : vadd (gridMax G) (some 1) = some (gM + 1) := by
            rw [hgM]; rfl
          have hany :
              (G.map fun row => fillna row (vadd (gridMax G) (some 1))).any
                allNaN = false := by
            rw [hfv]
            exact fill_any_false G (gM + 1) hnil
          have hl : allNaN_arg G .mmin =
              .ok (List.zipWith (fun m i => if m then none else some i)
                (G.map allNaN)
                ((G.map fun row =>
                  fillna row (vadd (gridMax G) (some 1))).map
                    nanargminIdx)) := by
            simp only [allNaN_arg, argminSkipna, Bind.bind, Except.bind,
              pure, Except.pure]
            rw [hany]
            simp
          refine ⟨_, hl, ?_⟩
          intro p row hrow
          constructor
          · intro hnan
            exact allNaN_arg_ok_at G .mmin _ p row hl hrow hnan
          · intro hvalid
            have h1 : (G.map allNaN).get? p = some false := by
              rw [List.get?_map, hrow]
              simp [hvalid]
            have h2 : ((G.map fun row =>
                fillna row (vadd (gridMax G) (some 1))).map
                  nanargminIdx).get? p =
                some (nanargminIdx
                  (fillna row (vadd (gridMax G) (some 1)))) := by
              rw [List.get?_map, List.get?_map, hrow]
              rfl
            have h3 := get?_zipWith (fun m i => if m then none else some i)
              (G.map allNaN) _ p false _ h1 h2
            refine ⟨gM + 1,
              nanargminIdx (fillna row (vadd (gridMax G) (some 1))), rfl,
              by simpa using h3, ?_⟩
            have hrw : fillna row (vadd (gridMax G) (some 1)) =
                (substRow (gM + 1) row).map some := by
              rw [hfv, fillna_map_some]
            rw [hrw]
            exact isFirstMinIdx_nanargmin _
              (substRow_ne_nil _ _ (ne_nil_of_not_allNaN row hvalid))

/-- Witness for C2 (amended): a concrete two-pixel grid, one all-invalid
pixel and one with a valid cell, in `min` mode. -/
theorem C2_sentinel_extremum_witness :
    ∃ l, allNaN_arg [[none, none, none, none], [some 0, none, none, none]]
        .mmin = .ok l ∧
      ∀ p row, ([[none, none, none, none],
          [some 0, none, none, none]] : List (List Val)).get? p = some row →
        (allNaN row = true → l.get? p = some none) ∧
        (allNaN row = false →
          match MStat.mmin with
          | .mmax => ∃ fv j, vsub (gridMin [[none, none, none, none],
                [some 0, none, none, none]]) (some 1) = some fv ∧
              l.get? p = some (some j) ∧ IsFirstMaxIdx (substRow fv row) j
          | .mmin => ∃ fv j, vadd (gridMax [[none, none, none, none],
                [some 0, none, none, none]]) (some 1) = some fv ∧
              l.get? p = some (some j) ∧
              IsFirstMinIdx (substRow fv row) j) :=
  C2_sentinel_extremum [[none, none, none, none], [some 0, none, none, none]]
    .mmin
    (by
      norm_num [gridMin, nanmin, vminSkip]
      exact fun h => Option.noConfusion h)
    (by
      intro row hr
      simp only [List.mem_cons, List.mem_singleton] at hr
      rcases hr with h | h | h
      · subst h; simp
      · subst h; simp
      · cases h)
